import Mathlib

/-!
Shallow embedding of the pyarch CPU emulator (src/pyarch/cpu.py) and
verification of the specification claims against it.

Conventions of the embedding:
* Python integers are `Int`; Python `%` is `Int.fmod` and `//` is `Int.fdiv`
  (both floor-rounding, exactly Python's semantics, including a negative
  modulus).  Python `x >> n` on ints is arithmetic shift, i.e. `Int.fdiv x
  (2 ^ n)`, and `x & 0xff` is `Int.emod x 256` (the low eight bits of the
  two's-complement representation; for the positive modulus 256 `emod`,
  `fmod` and Python `%` all agree).  Python `~`, `&`, `|`, `^` on ints are
  `Int.lnot`, `Int.land`, `Int.lor`, `Int.xor` (two's complement).
* The register file is a total function from slot index to value; the
  Python object holds a list of length 33 (`REG_RESVD + 1`), and every
  access through a run-time argument goes through `regIdx`, which models
  Python list indexing (negative indices wrap once, anything outside
  `[-33, 33)` raises `IndexError`).  An access that raises is `none`.
* Memory is a `List Nat` of bytes; `pyGetByte`/`pySetByte` model Python
  list indexing on it, `none` meaning an uncaught `IndexError`.
* Operations that can raise an uncaught Python exception return
  `Option CPUState`; `none` is an engine crash (never a trap).
-/

namespace CPU

def MINVAL : Int := -(2 ^ 32)

def MAXVAL : Int := 2 ^ 32 - 1

/-- Special register indices (constants of the Python class). -/
def REG_PC : Nat := 0x0

def REG_SP : Nat := 0x1

def REG_RES : Nat := 0x2

def REG_CARRY : Nat := 0x3

def REG_RET : Nat := 0x4

def REG_TRAP : Nat := 0x5

def REG_RESVD : Nat := 0x20

/-- Trap vectors. -/
def TRAP_INTR : Int := 0x10

def TRAP_ILL : Int := 0x20

def TRAP_DIV : Int := 0x30

def TRAP_DTRAP : Int := 0x40

/-- The mutable state of the CPU object: the register file (a Python list
of 33 integers, modelled as a total function on slot indices), the memory
byte list, and the interrupt-controller state (`intr_mask`,
`intr_pending`, and the `intr_event` signal). -/
@[ext]
structure CPUState where
  registers : Nat → Int
  memory : List Nat
  intr_mask : Bool
  intr_pending : Bool
  intr_event : Bool

/-- Read a register at a trusted (constant) index. -/
def getReg (s : CPUState) (r : Nat) : Int := s.registers r

/-- Write a register at a trusted (constant) index. -/
def setReg (s : CPUState) (r : Nat) (v : Int) : CPUState :=
  { s with registers := fun i => if i = r then v else s.registers i }

/-- Python list indexing into the 33-entry register list: nonnegative
indices are used directly, negative indices wrap once by adding the
length, and anything still out of `[0, 33)` raises `IndexError`. -/
def regIdx (a : Int) : Option Nat :=
  let j := if a < 0 then a + 33 else a
  if 0 ≤ j ∧ j < 33 then some j.toNat else none

/-- Read `self.registers[a]` where `a` is a run-time argument. -/
def getRegI (s : CPUState) (a : Int) : Option Int :=
  (regIdx a).map s.registers

/-- Write `self.registers[a] = v` where `a` is a run-time argument. -/
def setRegI (s : CPUState) (a : Int) (v : Int) : Option CPUState :=
  (regIdx a).map (fun r => setReg s r v)

/-- Python list read `memory[i]`: negative indices wrap once, out-of-range
raises `IndexError` (`none`). -/
def pyGetByte (m : List Nat) (i : Int) : Option Nat :=
  let j := if i < 0 then i + m.length else i
  if j < 0 then none else m[j.toNat]?

/-- Python list write `memory[i] = v`: same indexing rule as reads. -/
def pySetByte (m : List Nat) (i : Int) (v : Nat) : Option (List Nat) :=
  let j := if i < 0 then i + m.length else i
  if 0 ≤ j ∧ j < m.length then some (m.set j.toNat v) else none

/-- dsi(): mask external interrupts. -/
def dsi (s : CPUState) : CPUState := { s with intr_mask := true }

mutual

/-- trap(addr) with explicit recursion fuel.  The method sets
`intr_event`, masks interrupts, escalates to a double trap when the TRAP
register is already nonzero and the vector is not DTRAP, and otherwise
records TRAP := 1, RET := PC, jumps to the vector and clears
`intr_event`.  The real recursion depth is bounded (every escalation goes
to the fixed vector DTRAP ≥ 0), so any fuel ≥ 4 computes the method. -/
def trapFuel : Nat → CPUState → Int → CPUState
  | 0, s, _ => s
  | fuel + 1, s, addr =>
    let s1 := dsi { s with intr_event := true }
    if getReg s1 REG_TRAP ≠ 0 ∧ addr ≠ TRAP_DTRAP then
      trapFuel fuel s1 TRAP_DTRAP
    else
      let s2 := setReg s1 REG_TRAP 1
      let s3 := setReg s2 REG_RET (getReg s2 REG_PC)
      let s4 := jmpFuel fuel s3 addr
      { s4 with intr_event := false }

/-- jmp(addr) with explicit recursion fuel: a negative address traps ILL,
otherwise PC := addr. -/
def jmpFuel : Nat → CPUState → Int → CPUState
  | 0, s, _ => s
  | fuel + 1, s, addr =>
    if addr < 0 then trapFuel fuel s TRAP_ILL
    else setReg s REG_PC addr

end

def trap (s : CPUState) (addr : Int) : CPUState := trapFuel 8 s addr

def jmp (s : CPUState) (addr : Int) : CPUState := jmpFuel 8 s addr

def jmpeq (s : CPUState) (reg1 reg2 addr : Int) : Option CPUState := do
  let a ← getRegI s reg1
  let b ← getRegI s reg2
  if a = b then return jmp s addr else return s

def jmpeqi (s : CPUState) (reg1 val addr : Int) : Option CPUState :=
  jmpeq (setReg s REG_RESVD val) reg1 (REG_RESVD : Nat) addr

def jmpne (s : CPUState) (reg1 reg2 addr : Int) : Option CPUState := do
  let a ← getRegI s reg1
  let b ← getRegI s reg2
  if a ≠ b then return jmp s addr else return s

def jmpnei (s : CPUState) (reg1 val addr : Int) : Option CPUState :=
  jmpne (setReg s REG_RESVD val) reg1 (REG_RESVD : Nat) addr

def jmpgt (s : CPUState) (reg1 reg2 addr : Int) : Option CPUState := do
  let a ← getRegI s reg1
  let b ← getRegI s reg2
  if a > b then return jmp s addr else return s

def jmpgti (s : CPUState) (reg1 val addr : Int) : Option CPUState :=
  jmpgt (setReg s REG_RESVD val) reg1 (REG_RESVD : Nat) addr

def jmpge (s : CPUState) (reg1 reg2 addr : Int) : Option CPUState := do
  let a ← getRegI s reg1
  let b ← getRegI s reg2
  if a ≥ b then return jmp s addr else return s

def jmpgei (s : CPUState) (reg1 val addr : Int) : Option CPUState :=
  jmpge (setReg s REG_RESVD val) reg1 (REG_RESVD : Nat) addr

def jmplt (s : CPUState) (reg1 reg2 addr : Int) : Option CPUState := do
  let a ← getRegI s reg1
  let b ← getRegI s reg2
  if a < b then return jmp s addr else return s

def jmplti (s : CPUState) (reg1 val addr : Int) : Option CPUState :=
  jmplt (setReg s REG_RESVD val) reg1 (REG_RESVD : Nat) addr

def jmple (s : CPUState) (reg1 reg2 addr : Int) : Option CPUState := do
  let a ← getRegI s reg1
  let b ← getRegI s reg2
  if a ≤ b then return jmp s addr else return s

def jmplei (s : CPUState) (reg1 val addr : Int) : Option CPUState :=
  jmple (setReg s REG_RESVD val) reg1 (REG_RESVD : Nat) addr

/-- add(reg1, reg2, reg3): result = r1 + r2; r3 := result % MAXVAL;
CARRY := int(result > MAXVAL). -/
def add (s : CPUState) (reg1 reg2 reg3 : Int) : Option CPUState := do
  let a ← getRegI s reg1
  let b ← getRegI s reg2
  let result := a + b
  let s1 ← setRegI s reg3 (result.fmod MAXVAL)
  return setReg s1 REG_CARRY (if result > MAXVAL then 1 else 0)

def addi (s : CPUState) (reg1 val reg2 : Int) : Option CPUState :=
  add (setReg s REG_RESVD val) reg1 (REG_RESVD : Nat) reg2

/-- sub(reg1, reg2, reg3): result = r1 - r2; r3 := result % MINVAL;
CARRY := int(result < MINVAL). -/
def sub (s : CPUState) (reg1 reg2 reg3 : Int) : Option CPUState := do
  let a ← getRegI s reg1
  let b ← getRegI s reg2
  let result := a - b
  let s1 ← setRegI s reg3 (result.fmod MINVAL)
  return setReg s1 REG_CARRY (if result < MINVAL then 1 else 0)

def subi (s : CPUState) (reg1 val reg2 : Int) : Option CPUState :=
  sub (setReg s REG_RESVD val) reg1 (REG_RESVD : Nat) reg2

def mul (s : CPUState) (reg1 reg2 reg3 : Int) : Option CPUState := do
  let a ← getRegI s reg1
  let b ← getRegI s reg2
  let result := a * b
  let s1 ← setRegI s reg3 (result.fmod MAXVAL)
  return setReg s1 REG_CARRY (if result > MAXVAL then 1 else 0)

def muli (s : CPUState) (reg1 val reg2 : Int) : Option CPUState :=
  mul (setReg s REG_RESVD val) reg1 (REG_RESVD : Nat) reg2

/-- div(reg1, reg2, reg3): a zero divisor raises the DIV trap and leaves
everything else untouched; otherwise r3 := r1 // r2 (floor division) and
CARRY := 0. -/
def div (s : CPUState) (reg1 reg2 reg3 : Int) : Option CPUState := do
  let b ← getRegI s reg2
  if b = 0 then
    return trap s TRAP_DIV
  else
    let a ← getRegI s reg1
    let s1 ← setRegI s reg3 (a.fdiv b)
    return setReg s1 REG_CARRY 0

def divi (s : CPUState) (reg1 val reg2 : Int) : Option CPUState :=
  div (setReg s REG_RESVD val) reg1 (REG_RESVD : Nat) reg2

/-- loadw(reg1, addr): word accesses past MAXVAL trap ILL; otherwise four
bytes are read big-endian into the register. -/
def loadw (s : CPUState) (reg1 addr : Int) : Option CPUState :=
  if addr + 3 > MAXVAL then some (trap s TRAP_ILL)
  else do
    let b0 ← pyGetByte s.memory addr
    let b1 ← pyGetByte s.memory (addr + 1)
    let b2 ← pyGetByte s.memory (addr + 2)
    let b3 ← pyGetByte s.memory (addr + 3)
    setRegI s reg1 ((b0 <<< 24 ||| b1 <<< 16 ||| b2 <<< 8 ||| b3 : Nat) : Int)

def loadwr (s : CPUState) (reg1 reg2 : Int) : Option CPUState := do
  let a ← getRegI s reg2
  loadw s reg1 a

def loadwi (s : CPUState) (reg1 val : Int) : Option CPUState :=
  setRegI s reg1 val

/-- savew(reg1, addr): word accesses past MAXVAL trap ILL; otherwise the
low 32 bits of the register are stored big-endian, one byte at a time,
each byte computed as `(value >> shift) & 0xff`. -/
def savew (s : CPUState) (reg1 addr : Int) : Option CPUState :=
  if addr + 3 > MAXVAL then some (trap s TRAP_ILL)
  else do
    let v ← getRegI s reg1
    let m0 ← pySetByte s.memory addr ((v.fdiv (2 ^ 24)).emod 256).toNat
    let m1 ← pySetByte m0 (addr + 1) ((v.fdiv (2 ^ 16)).emod 256).toNat
    let m2 ← pySetByte m1 (addr + 2) ((v.fdiv (2 ^ 8)).emod 256).toNat
    let m3 ← pySetByte m2 (addr + 3) (v.emod 256).toNat
    return { s with memory := m3 }

def savewr (s : CPUState) (reg1 reg2 : Int) : Option CPUState := do
  let a ← getRegI s reg2
  savew s reg1 a

def savewi (s : CPUState) (val addr : Int) : Option CPUState :=
  savew (setReg s REG_RESVD val) (REG_RESVD : Nat) addr

/-- loadb(reg1, addr): a single byte read, with no bounds trap. -/
def loadb (s : CPUState) (reg1 addr : Int) : Option CPUState := do
  let b ← pyGetByte s.memory addr
  setRegI s reg1 (b : Int)

def loadbr (s : CPUState) (reg1 reg2 : Int) : Option CPUState := do
  let a ← getRegI s reg2
  loadb s reg1 a

def loadbi (s : CPUState) (reg1 val : Int) : Option CPUState :=
  setRegI s reg1 (val.emod 256)

/-- saveb(reg1, addr): a single byte write of the low 8 bits, with no
bounds trap. -/
def saveb (s : CPUState) (reg1 addr : Int) : Option CPUState := do
  let v ← getRegI s reg1
  let m ← pySetByte s.memory addr (v.emod 256).toNat
  return { s with memory := m }

def savebr (s : CPUState) (reg1 reg2 : Int) : Option CPUState := do
  let a ← getRegI s reg2
  saveb s reg1 a

def savebi (s : CPUState) (val addr : Int) : Option CPUState :=
  saveb (setReg s REG_RESVD val) (REG_RESVD : Nat) addr

def nop (s : CPUState) : CPUState := s

/-- intr(): while masked an external interrupt only records one pending
bit; otherwise pending is cleared and the INTR trap is delivered. -/
def intr (s : CPUState) : CPUState :=
  if s.intr_mask then { s with intr_pending := true }
  else trap { s with intr_pending := false } TRAP_INTR

/-- eni(): unmask, then deliver a pending interrupt if there is one. -/
def eni (s : CPUState) : CPUState :=
  let s1 := { s with intr_mask := false }
  if s1.intr_pending then intr s1 else s1

/-- ret(): TRAP := 0, PC := RET, then eni(). -/
def ret (s : CPUState) : CPUState :=
  let s1 := setReg s REG_TRAP 0
  let s2 := setReg s1 REG_PC (getReg s1 REG_RET)
  eni s2

/-- swap(reg1, reg2), transcribed exactly: temp = registers[reg1];
registers[reg1] = reg2 (the argument itself, not its contents);
registers[reg2] = temp. -/
def swap (s : CPUState) (reg1 reg2 : Int) : Option CPUState := do
  let temp ← getRegI s reg1
  let s1 ← setRegI s reg1 reg2
  setRegI s1 reg2 temp

def copy (s : CPUState) (reg1 reg2 : Int) : Option CPUState := do
  let v ← getRegI s reg2
  setRegI s reg1 v

def and_ (s : CPUState) (reg1 reg2 reg3 : Int) : Option CPUState := do
  let a ← getRegI s reg1
  let b ← getRegI s reg2
  setRegI s reg3 (Int.land a b)

def andi (s : CPUState) (reg1 val reg2 : Int) : Option CPUState := do
  let a ← getRegI s reg1
  setRegI s reg2 (Int.land a val)

def or_ (s : CPUState) (reg1 reg2 reg3 : Int) : Option CPUState := do
  let a ← getRegI s reg1
  let b ← getRegI s reg2
  setRegI s reg3 (Int.lor a b)

def ori (s : CPUState) (reg1 val reg2 : Int) : Option CPUState := do
  let a ← getRegI s reg1
  setRegI s reg2 (Int.lor a val)

def xor_ (s : CPUState) (reg1 reg2 reg3 : Int) : Option CPUState := do
  let a ← getRegI s reg1
  let b ← getRegI s reg2
  setRegI s reg3 (Int.xor a b)

def xori (s : CPUState) (reg1 val reg2 : Int) : Option CPUState := do
  let a ← getRegI s reg1
  setRegI s reg2 (Int.xor a val)

def not_ (s : CPUState) (reg1 reg2 : Int) : Option CPUState := do
  let a ← getRegI s reg1
  setRegI s reg2 (Int.lnot a)

/-- shl(reg1, reg2, reg3): r3 := r1 << r2.  A negative shift count raises
`ValueError` in Python (an engine crash); the result is not reduced. -/
def shl (s : CPUState) (reg1 reg2 reg3 : Int) : Option CPUState := do
  let a ← getRegI s reg1
  let n ← getRegI s reg2
  if n < 0 then none
  else setRegI s reg3 (a * 2 ^ n.toNat)

def shli (s : CPUState) (reg1 val reg2 : Int) : Option CPUState := do
  let a ← getRegI s reg1
  if val < 0 then none
  else setRegI s reg2 (a * 2 ^ val.toNat)

/-- shr(reg1, reg2, reg3): r3 := r1 >> r2, arithmetic shift, i.e. floor
division by a power of two.  A negative count raises `ValueError`. -/
def shr (s : CPUState) (reg1 reg2 reg3 : Int) : Option CPUState := do
  let a ← getRegI s reg1
  let n ← getRegI s reg2
  if n < 0 then none
  else setRegI s reg3 (a.fdiv (2 ^ n.toNat))

def shri (s : CPUState) (reg1 val reg2 : Int) : Option CPUState := do
  let a ← getRegI s reg1
  if val < 0 then none
  else setRegI s reg2 (a.fdiv (2 ^ val.toNat))

/-- Instruction parameter kinds. -/
inductive ArgKind where
  | IA_NONE : ArgKind
  | IA_IMMED : ArgKind
  | IA_ADDR : ArgKind
  | IA_REG : ArgKind
deriving DecidableEq, Repr

open ArgKind in
/-- The kind triples of the instruction table, row by row in opcode
order; the bound operation of each row is dispatched by `execOp`. -/
def INSTRS : List (ArgKind × ArgKind × ArgKind) := [
  (IA_NONE,  IA_NONE,  IA_NONE),   -- 0x0  nop
  (IA_REG,   IA_ADDR,  IA_NONE),   -- 0x1  savew
  (IA_REG,   IA_REG,   IA_NONE),   -- 0x2  savewr
  (IA_IMMED, IA_ADDR,  IA_NONE),   -- 0x3  savewi
  (IA_REG,   IA_ADDR,  IA_NONE),   -- 0x4  loadw
  (IA_REG,   IA_REG,   IA_NONE),   -- 0x5  loadwr
  (IA_REG,   IA_IMMED, IA_NONE),   -- 0x6  loadwi
  (IA_REG,   IA_ADDR,  IA_NONE),   -- 0x7  saveb
  (IA_REG,   IA_REG,   IA_NONE),   -- 0x8  savebr
  (IA_IMMED, IA_ADDR,  IA_NONE),   -- 0x9  savebi
  (IA_REG,   IA_ADDR,  IA_NONE),   -- 0xa  loadb
  (IA_REG,   IA_REG,   IA_NONE),   -- 0xb  loadbr
  (IA_REG,   IA_IMMED, IA_NONE),   -- 0xc  loadbi
  (IA_REG,   IA_REG,   IA_REG),    -- 0xd  add
  (IA_REG,   IA_REG,   IA_REG),    -- 0xe  sub
  (IA_REG,   IA_REG,   IA_REG),    -- 0xf  mul
  (IA_REG,   IA_REG,   IA_REG),    -- 0x10 div
  (IA_REG,   IA_IMMED, IA_REG),    -- 0x11 addi
  (IA_REG,   IA_IMMED, IA_REG),    -- 0x12 subi
  (IA_REG,   IA_IMMED, IA_REG),    -- 0x13 muli
  (IA_REG,   IA_IMMED, IA_REG),    -- 0x14 divi
  (IA_ADDR,  IA_NONE,  IA_NONE),   -- 0x15 jmp
  (IA_REG,   IA_REG,   IA_ADDR),   -- 0x16 jmpeq
  (IA_REG,   IA_REG,   IA_ADDR),   -- 0x17 jmpne
  (IA_REG,   IA_REG,   IA_ADDR),   -- 0x18 jmplt
  (IA_REG,   IA_REG,   IA_ADDR),   -- 0x19 jmpgt
  (IA_REG,   IA_REG,   IA_ADDR),   -- 0x1a jmple
  (IA_REG,   IA_REG,   IA_ADDR),   -- 0x1b jmpge
  (IA_REG,   IA_IMMED, IA_ADDR),   -- 0x1c jmpeqi
  (IA_REG,   IA_IMMED, IA_ADDR),   -- 0x1d jmpnei
  (IA_REG,   IA_IMMED, IA_ADDR),   -- 0x1e jmplti
  (IA_REG,   IA_IMMED, IA_ADDR),   -- 0x1f jmpgti
  (IA_REG,   IA_IMMED, IA_ADDR),   -- 0x20 jmplei
  (IA_REG,   IA_IMMED, IA_ADDR),   -- 0x21 jmpgei
  (IA_NONE,  IA_NONE,  IA_NONE),   -- 0x22 halt
  (IA_NONE,  IA_NONE,  IA_NONE),   -- 0x23 intr
  (IA_NONE,  IA_NONE,  IA_NONE),   -- 0x24 ret
  (IA_NONE,  IA_NONE,  IA_NONE),   -- 0x25 eni
  (IA_NONE,  IA_NONE,  IA_NONE),   -- 0x26 dsi
  (IA_NONE,  IA_NONE,  IA_NONE),   -- 0x27 wait
  (IA_REG,   IA_REG,   IA_NONE),   -- 0x28 swap
  (IA_REG,   IA_REG,   IA_NONE),   -- 0x29 copy
  (IA_REG,   IA_REG,   IA_REG),    -- 0x2a and
  (IA_REG,   IA_REG,   IA_REG),    -- 0x2b or
  (IA_REG,   IA_REG,   IA_REG),    -- 0x2c xor
  (IA_REG,   IA_IMMED, IA_REG),    -- 0x2d andi
  (IA_REG,   IA_IMMED, IA_REG),    -- 0x2e ori
  (IA_REG,   IA_IMMED, IA_REG),    -- 0x2f xori
  (IA_REG,   IA_REG,   IA_NONE),   -- 0x30 not
  (IA_REG,   IA_REG,   IA_REG),    -- 0x31 shl
  (IA_REG,   IA_REG,   IA_REG),    -- 0x32 shr
  (IA_REG,   IA_IMMED, IA_REG),    -- 0x33 shli
  (IA_REG,   IA_IMMED, IA_REG)]    -- 0x34 shri

/-- The operand type-check loop of `decode_next_instr`: NONE operands are
skipped, a REG operand strictly greater than `REG_RESVD` is rejected
(`none`, which the decoder turns into an ILL trap), and accepted operands
are collected in order. -/
def checkArgs : List (ArgKind × Int) → Option (List Int)
  | [] => some []
  | (t, arg) :: rest =>
    match t with
    | ArgKind.IA_NONE => checkArgs rest
    | ArgKind.IA_REG =>
        if arg > (REG_RESVD : Int) then none
        else (checkArgs rest).map (fun l => arg :: l)
    | _ => (checkArgs rest).map (fun l => arg :: l)

/-- Result of one fetch-decode-dispatch step: a normal next state, the
halt instruction (which dumps state and exits the process), the wait
instruction blocking on an unsignalled interrupt event, or an uncaught
Python exception aborting the engine. -/
inductive StepResult where
  | ok : CPUState → StepResult
  | halted : CPUState → StepResult
  | blocked : CPUState → StepResult
  | crash : StepResult

/-- Extract the machine state of any non-crashing step result. -/
def stateOf : StepResult → Option CPUState
  | .ok s => some s
  | .halted s => some s
  | .blocked s => some s
  | .crash => none

/-- Lift a fallible operation into a step result. -/
def liftOp : Option CPUState → StepResult
  | some s => .ok s
  | none => .crash

/-- Dispatch `instr_fn(self, *arglist)` for the opcode-indexed row of the
instruction table (the `instruction_fn` column of `INSTRS`).  An argument
list whose shape cannot arise from the table row would be a Python
`TypeError`, i.e. a crash. -/
def execOp (s : CPUState) (opcode : Nat) (args : List Int) : StepResult :=
  match opcode, args with
  | 0x00, [] => .ok (nop s)
  | 0x01, [a1, a2] => liftOp (savew s a1 a2)
  | 0x02, [a1, a2] => liftOp (savewr s a1 a2)
  | 0x03, [a1, a2] => liftOp (savewi s a1 a2)
  | 0x04, [a1, a2] => liftOp (loadw s a1 a2)
  | 0x05, [a1, a2] => liftOp (loadwr s a1 a2)
  | 0x06, [a1, a2] => liftOp (loadwi s a1 a2)
  | 0x07, [a1, a2] => liftOp (saveb s a1 a2)
  | 0x08, [a1, a2] => liftOp (savebr s a1 a2)
  | 0x09, [a1, a2] => liftOp (savebi s a1 a2)
  | 0x0a, [a1, a2] => liftOp (loadb s a1 a2)
  | 0x0b, [a1, a2] => liftOp (loadbr s a1 a2)
  | 0x0c, [a1, a2] => liftOp (loadbi s a1 a2)
  | 0x0d, [a1, a2, a3] => liftOp (add s a1 a2 a3)
  | 0x0e, [a1, a2, a3] => liftOp (sub s a1 a2 a3)
  | 0x0f, [a1, a2, a3] => liftOp (mul s a1 a2 a3)
  | 0x10, [a1, a2, a3] => liftOp (div s a1 a2 a3)
  | 0x11, [a1, a2, a3] => liftOp (addi s a1 a2 a3)
  | 0x12, [a1, a2, a3] => liftOp (subi s a1 a2 a3)
  | 0x13, [a1, a2, a3] => liftOp (muli s a1 a2 a3)
  | 0x14, [a1, a2, a3] => liftOp (divi s a1 a2 a3)
  | 0x15, [a1] => .ok (jmp s a1)
  | 0x16, [a1, a2, a3] => liftOp (jmpeq s a1 a2 a3)
  | 0x17, [a1, a2, a3] => liftOp (jmpne s a1 a2 a3)
  | 0x18, [a1, a2, a3] => liftOp (jmplt s a1 a2 a3)
  | 0x19, [a1, a2, a3] => liftOp (jmpgt s a1 a2 a3)
  | 0x1a, [a1, a2, a3] => liftOp (jmple s a1 a2 a3)
  | 0x1b, [a1, a2, a3] => liftOp (jmpge s a1 a2 a3)
  | 0x1c, [a1, a2, a3] => liftOp (jmpeqi s a1 a2 a3)
  | 0x1d, [a1, a2, a3] => liftOp (jmpnei s a1 a2 a3)
  | 0x1e, [a1, a2, a3] => liftOp (jmplti s a1 a2 a3)
  | 0x1f, [a1, a2, a3] => liftOp (jmpgti s a1 a2 a3)
  | 0x20, [a1, a2, a3] => liftOp (jmplei s a1 a2 a3)
  | 0x21, [a1, a2, a3] => liftOp (jmpgei s a1 a2 a3)
  | 0x22, [] => .halted s
  | 0x23, [] => .ok (intr s)
  | 0x24, [] => .ok (ret s)
  | 0x25, [] => .ok (eni s)
  | 0x26, [] => .ok (dsi s)
  | 0x27, [] => if s.intr_event then .ok s else .blocked s
  | 0x28, [a1, a2] => liftOp (swap s a1 a2)
  | 0x29, [a1, a2] => liftOp (copy s a1 a2)
  | 0x2a, [a1, a2, a3] => liftOp (and_ s a1 a2 a3)
  | 0x2b, [a1, a2, a3] => liftOp (or_ s a1 a2 a3)
  | 0x2c, [a1, a2, a3] => liftOp (xor_ s a1 a2 a3)
  | 0x2d, [a1, a2, a3] => liftOp (andi s a1 a2 a3)
  | 0x2e, [a1, a2, a3] => liftOp (ori s a1 a2 a3)
  | 0x2f, [a1, a2, a3] => liftOp (xori s a1 a2 a3)
  | 0x30, [a1, a2] => liftOp (not_ s a1 a2)
  | 0x31, [a1, a2, a3] => liftOp (shl s a1 a2 a3)
  | 0x32, [a1, a2, a3] => liftOp (shr s a1 a2 a3)
  | 0x33, [a1, a2, a3] => liftOp (shli s a1 a2 a3)
  | 0x34, [a1, a2, a3] => liftOp (shri s a1 a2 a3)
  | _, _ => .crash

/-- One word fetch of the decoder: `loadw` into the scratch register at
the current PC, read the scratch register, then PC += 4.  Returns the
fetched word together with the state after the fetch. -/
def fetchWord (s : CPUState) : Option (CPUState × Int) := do
  let s1 ← loadw s (REG_RESVD : Nat) (getReg s REG_PC)
  let w := getReg s1 REG_RESVD
  return (setReg s1 REG_PC (getReg s1 REG_PC + 4), w)

/-- decode_next_instr(): fetch four words (opcode and three operands),
trap ILL on an opcode beyond the table, otherwise look the row up with
Python list indexing (a negative opcode wraps once), type-check the
operands and dispatch.  A bad REG operand traps ILL. -/
def decode_next_instr (s : CPUState) : StepResult :=
  match fetchWord s with
  | none => .crash
  | some (sa, opcode) =>
  match fetchWord sa with
  | none => .crash
  | some (sb, op1) =>
  match fetchWord sb with
  | none => .crash
  | some (sc, op2) =>
  match fetchWord sc with
  | none => .crash
  | some (sd, op3) =>
  if opcode ≥ (INSTRS.length : Int) then .ok (trap sd TRAP_ILL)
  else
    let idx := if opcode < 0 then opcode + INSTRS.length else opcode
    if idx < 0 then .crash
    else
      match INSTRS[idx.toNat]? with
      | none => .crash
      | some (k1, k2, k3) =>
        match checkArgs [(k1, op1), (k2, op2), (k3, op3)] with
        | none => .ok (trap sd TRAP_ILL)
        | some args => execOp sd idx.toNat args

/-- Project a register value out of a fallible operation result. -/
def regOf (o : Option CPUState) (r : Nat) : Option Int :=
  o.map (fun s => getReg s r)

/-- A value representable in the conceptual signed 33-bit register range. -/
def inRange (x : Int) : Prop := MINVAL ≤ x ∧ x ≤ MAXVAL

/-- Build a concrete state: a memory byte list and an association list of
register values (unlisted registers are 0, as after construction). -/
def mkState (mem : List Nat) (rf : List (Nat × Int)) : CPUState :=
  { registers := fun i => ((rf.lookup i).getD 0), memory := mem,
    intr_mask := false, intr_pending := false, intr_event := false }

/-- Project a register value out of a step result. -/
def regOfResult (r : StepResult) (i : Nat) : Option Int :=
  (stateOf r).map (fun s => getReg s i)

/-- The state invariant of spec section 8, property 1: all 33 register
slots in the signed 33-bit range, CARRY and TRAP each 0 or 1, and every
memory byte below 256. -/
def stInv (s : CPUState) : Prop :=
  (∀ i, i < 33 → inRange (getReg s i)) ∧
  (getReg s REG_CARRY = 0 ∨ getReg s REG_CARRY = 1) ∧
  (getReg s REG_TRAP = 0 ∨ getReg s REG_TRAP = 1) ∧
  (∀ b ∈ s.memory, b < 256)

/-- Every state a step result can deliver satisfies the invariant. -/
def resultInv (r : StepResult) : Prop :=
  ∀ t, stateOf r = some t → stInv t

/-- The REG-kind operands of the decoded instruction name neither the
CARRY register (3) nor the TRAP register (5). -/
def regOperandsOk (w0 w1 w2 w3 : Int) : Prop :=
  match INSTRS[w0.toNat]? with
  | none => True
  | some (k1, k2, k3) =>
    (k1 = ArgKind.IA_REG → w1 ≠ 3 ∧ w1 ≠ 5) ∧
    (k2 = ArgKind.IA_REG → w2 ≠ 3 ∧ w2 ≠ 5) ∧
    (k3 = ArgKind.IA_REG → w3 ≠ 3 ∧ w3 ≠ 5)

/-- The state a non-escalating trap to a nonnegative vector produces:
interrupts masked, interrupt event cleared, TRAP := 1, RET := PC,
PC := vector. -/
def trapState (s : CPUState) (addr : Int) : CPUState :=
  { s with
    registers := fun i =>
      if i = REG_PC then addr
      else if i = REG_RET then s.registers REG_PC
      else if i = REG_TRAP then 1 else s.registers i,
    intr_mask := true, intr_event := false }

instance decInRange (x : Int) : Decidable (inRange x) :=
  inferInstanceAs (Decidable (MINVAL ≤ x ∧ x ≤ MAXVAL))

instance decStInv (s : CPUState) : Decidable (stInv s) :=
  inferInstanceAs (Decidable ((∀ i, i < 33 → inRange (getReg s i)) ∧
    (getReg s REG_CARRY = 0 ∨ getReg s REG_CARRY = 1) ∧
    (getReg s REG_TRAP = 0 ∨ getReg s REG_TRAP = 1) ∧
    (∀ b ∈ s.memory, b < 256)))

/-! Basic lemmas about register access. -/

theorem getReg_setReg_self (s : CPUState) (r : Nat) (v : Int) :
    getReg (setReg s r v) r = v := by
  simp [getReg, setReg]

theorem getReg_setReg_ne (s : CPUState) {r r2 : Nat} (v : Int) (h : r2 ≠ r) :
    getReg (setReg s r v) r2 = getReg s r2 := by
  simp [getReg, setReg, h]

theorem regIdx_natCast (r : Nat) (h : r < 33) : regIdx (r : Int) = some r := by
  have hneg : ¬((r : Int) < 0) := by omega
  have hlt : ((r : Int) < 33) := by omega
  simp [regIdx, hneg, hlt]

theorem getRegI_natCast (s : CPUState) (r : Nat) (h : r < 33) :
    getRegI s (r : Int) = some (getReg s r) := by
  simp [getRegI, regIdx_natCast r h, getReg]

theorem setRegI_natCast (s : CPUState) (r : Nat) (v : Int) (h : r < 33) :
    setRegI s (r : Int) v = some (setReg s r v) := by
  simp [setRegI, regIdx_natCast r h]

/-! Characterizations of the three wrap-around arithmetic operations on
in-range register indices. -/

theorem add_eq (s : CPUState) (r1 r2 r3 : Nat)
    (h1 : r1 < 33) (h2 : r2 < 33) (h3 : r3 < 33) :
    add s (r1 : Int) (r2 : Int) (r3 : Int) =
      some (setReg (setReg s r3 ((getReg s r1 + getReg s r2).fmod MAXVAL))
        REG_CARRY (if getReg s r1 + getReg s r2 > MAXVAL then 1 else 0)) := by
  simp [add, getRegI_natCast _ _ h1, getRegI_natCast _ _ h2, setRegI_natCast _ _ _ h3]

theorem sub_eq (s : CPUState) (r1 r2 r3 : Nat)
    (h1 : r1 < 33) (h2 : r2 < 33) (h3 : r3 < 33) :
    sub s (r1 : Int) (r2 : Int) (r3 : Int) =
      some (setReg (setReg s r3 ((getReg s r1 - getReg s r2).fmod MINVAL))
        REG_CARRY (if getReg s r1 - getReg s r2 < MINVAL then 1 else 0)) := by
  simp [sub, getRegI_natCast _ _ h1, getRegI_natCast _ _ h2, setRegI_natCast _ _ _ h3]

theorem mul_eq (s : CPUState) (r1 r2 r3 : Nat)
    (h1 : r1 < 33) (h2 : r2 < 33) (h3 : r3 < 33) :
    mul s (r1 : Int) (r2 : Int) (r3 : Int) =
      some (setReg (setReg s r3 ((getReg s r1 * getReg s r2).fmod MAXVAL))
        REG_CARRY (if getReg s r1 * getReg s r2 > MAXVAL then 1 else 0)) := by
  simp [mul, getRegI_natCast _ _ h1, getRegI_natCast _ _ h2, setRegI_natCast _ _ _ h3]

/-- Floor-mod by a negative modulus yields a residue in `(b, 0]`, exactly
Python's convention for `%` with a negative right operand. -/
theorem fmod_neg_bounds (a : Int) {b : Int} (hb : b < 0) :
    b < a.fmod b ∧ a.fmod b ≤ 0 := by
  obtain ⟨n⟩ | ⟨n⟩ := b
  · exact absurd hb (by rw [Int.ofNat_eq_coe] at hb ⊢; omega)
  · obtain ⟨m⟩ | ⟨m⟩ := a
    · match m with
      | 0 =>
        show Int.negSucc n < Int.fmod 0 (Int.negSucc n) ∧ Int.fmod 0 (Int.negSucc n) ≤ 0
        rw [Int.zero_fmod, Int.negSucc_eq]
        omega
      | Nat.succ m =>
        show Int.negSucc n < Int.subNatNat (m % n.succ) n ∧
          Int.subNatNat (m % n.succ) n ≤ 0
        rw [Int.subNatNat_eq_coe, Int.negSucc_eq]
        have hm : m % n.succ < n.succ := Nat.mod_lt m (Nat.succ_pos n)
        omega
    · show Int.negSucc n < -(Int.ofNat (m.succ % n.succ)) ∧
        -(Int.ofNat (m.succ % n.succ)) ≤ 0
      have hm : m.succ % n.succ < n.succ := Nat.mod_lt _ (Nat.succ_pos n)
      rw [Int.negSucc_eq, Int.ofNat_eq_coe]
      omega

/-- Bitwise or of a shifted value with a small value is addition: the
bit ranges are disjoint. -/
theorem mul_two_pow_or_eq_add (k : Nat) :
    ∀ a b : Nat, b < 2 ^ k → a * 2 ^ k ||| b = a * 2 ^ k + b := by
  induction k with
  | zero =>
    intro a b hb
    have : b = 0 := by omega
    subst this
    simp
  | succ k ih =>
    intro a b hb
    have h2 : 2 ^ (k + 1) = 2 * 2 ^ k := by rw [Nat.pow_succ]; omega
    have hdiv : a * 2 ^ (k + 1) / 2 = a * 2 ^ k := by
      have hx : a * 2 ^ (k + 1) = a * 2 ^ k * 2 := by rw [h2]; ring
      rw [hx]
      omega
    have hmod : a * 2 ^ (k + 1) % 2 = 0 := by
      have hx : a * 2 ^ (k + 1) = a * 2 ^ k * 2 := by rw [h2]; ring
      rw [hx]
      exact Nat.mul_mod_left _ _
    have hquot : (a * 2 ^ (k + 1) ||| b) / 2 = a * 2 ^ k + b / 2 := by
      rw [Nat.or_div_two, hdiv]
      refine ih a (b / 2) ?_
      rw [Nat.div_lt_iff_lt_mul (by omega : 0 < 2)]
      omega
    have hrem2 : (a * 2 ^ (k + 1) ||| b) % 2 = 1 ↔ b % 2 = 1 := by
      rw [Nat.or_mod_two_eq_one]
      omega
    have h1 := Nat.div_add_mod (a * 2 ^ (k + 1) ||| b) 2
    have h2b := Nat.div_add_mod b 2
    have hm1 : (a * 2 ^ (k + 1) ||| b) % 2 < 2 := Nat.mod_lt _ (by omega)
    have hm2 : b % 2 < 2 := Nat.mod_lt _ (by omega)
    omega

/-- The big-endian byte composition performed by loadw, as a sum. -/
theorem loadw_bytes_eq (b0 b1 b2 b3 : Nat)
    (h0 : b0 < 256) (h1 : b1 < 256) (h2 : b2 < 256) (h3 : b3 < 256) :
    (b0 <<< 24 ||| b1 <<< 16 ||| b2 <<< 8 ||| b3 : Nat) =
      b0 * 2 ^ 24 + b1 * 2 ^ 16 + b2 * 2 ^ 8 + b3 := by
  rw [Nat.shiftLeft_eq, Nat.shiftLeft_eq, Nat.shiftLeft_eq]
  have e1 : b0 * 2 ^ 24 ||| b1 * 2 ^ 16 = b0 * 2 ^ 24 + b1 * 2 ^ 16 := by
    have := mul_two_pow_or_eq_add 24 b0 (b1 * 2 ^ 16) (by omega)
    omega
  have e2 : b0 * 2 ^ 24 + b1 * 2 ^ 16 ||| b2 * 2 ^ 8 =
      b0 * 2 ^ 24 + b1 * 2 ^ 16 + b2 * 2 ^ 8 := by
    have hx : b0 * 2 ^ 24 + b1 * 2 ^ 16 = (b0 * 2 ^ 8 + b1) * 2 ^ 16 := by ring
    have := mul_two_pow_or_eq_add 16 (b0 * 2 ^ 8 + b1) (b2 * 2 ^ 8) (by omega)
    rw [hx]
    omega
  have e3 : b0 * 2 ^ 24 + b1 * 2 ^ 16 + b2 * 2 ^ 8 ||| b3 =
      b0 * 2 ^ 24 + b1 * 2 ^ 16 + b2 * 2 ^ 8 + b3 := by
    have hx : b0 * 2 ^ 24 + b1 * 2 ^ 16 + b2 * 2 ^ 8 =
        (b0 * 2 ^ 16 + b1 * 2 ^ 8 + b2) * 2 ^ 8 := by ring
    have := mul_two_pow_or_eq_add 8 (b0 * 2 ^ 16 + b1 * 2 ^ 8 + b2) b3 (by omega)
    rw [hx]
    omega
  rw [e1, e2, e3]

/-- A byte extracted by savew — `(v >> k) & 0xff`, i.e. floor shift then
low eight bits — is the corresponding base-256 digit of the low 32 bits
of v. -/
theorem fdiv_emod_byte (v : Int) (k : Nat) (hk : k + 8 ≤ 32) :
    (v.fdiv (2 ^ k)).emod 256 =
      (((v.emod (2 ^ 32)).toNat / 2 ^ k % 256 : Nat) : Int) := by
  have hp : (0 : Int) ≤ 2 ^ k := by positivity
  have h2k : ((2 : Int) ^ k) ≠ 0 := by positivity
  rw [Int.fdiv_eq_ediv _ hp]
  have hv : v = v.emod (2 ^ 32) + (v / 2 ^ 32) * 2 ^ (32 - k) * 2 ^ k := by
    have h32 : (2 : Int) ^ (32 - k) * 2 ^ k = 2 ^ 32 := by
      rw [← pow_add]; congr 1; omega
    have hme : v.emod (2 ^ 32) + v / 2 ^ 32 * 2 ^ 32 = v :=
      Int.emod_add_ediv' v (2 ^ 32)
    rw [mul_assoc, h32]
    exact hme.symm
  have e1 : v / 2 ^ k =
      v.emod (2 ^ 32) / 2 ^ k + v / 2 ^ 32 * 2 ^ (32 - k) := by
    conv_lhs => rw [hv]
    exact Int.add_mul_ediv_right _ _ h2k
  rw [e1]
  have e2 : v / 2 ^ 32 * 2 ^ (32 - k) =
      v / 2 ^ 32 * 2 ^ (32 - k - 8) * 256 := by
    rw [mul_assoc]
    congr 1
    have : (2 : Int) ^ (32 - k - 8) * 256 = 2 ^ (32 - k - 8) * 2 ^ 8 := by norm_num
    rw [this, ← pow_add]
    congr 1
    omega
  show (v.emod (2 ^ 32) / 2 ^ k + v / 2 ^ 32 * 2 ^ (32 - k)) % 256 = _
  rw [e2, Int.add_mul_emod_self]
  have hnn : 0 ≤ v.emod (2 ^ 32) := Int.emod_nonneg v (by positivity)
  obtain ⟨e, he⟩ : ∃ e : Nat, v.emod (2 ^ 32) = (e : Int) :=
    ⟨(v.emod (2 ^ 32)).toNat, (Int.toNat_of_nonneg hnn).symm⟩
  rw [he]
  simp only [Int.toNat_natCast]
  push_cast
  norm_num

theorem pyGetByte_of_nonneg (m : List Nat) (i : Int) (h : 0 ≤ i) :
    pyGetByte m i = m[i.toNat]? := by
  have h1 : ¬ i < 0 := by omega
  simp [pyGetByte, h1]

theorem pySetByte_of_nonneg (m : List Nat) (i : Int) (v : Nat)
    (h : 0 ≤ i) (hl : i < (m.length : Int)) :
    pySetByte m i v = some (m.set i.toNat v) := by
  have h1 : ¬ i < 0 := by omega
  simp [pySetByte, h1, h, hl]

/-- savew on an in-range nonnegative address writes the four big-endian
bytes `(v >> 24) & 0xff`, …, `v & 0xff` at addr .. addr + 3. -/
theorem savew_eq (s : CPUState) (r1 : Nat) (a : Int) (h1 : r1 < 33)
    (ha : 0 ≤ a) (hb : a + 3 ≤ MAXVAL) (hm : a.toNat + 3 < s.memory.length) :
    savew s (r1 : Int) a = some { s with memory :=
      ((((s.memory.set a.toNat ((((getReg s r1).fdiv (2 ^ 24)).emod 256).toNat)).set
        (a.toNat + 1) ((((getReg s r1).fdiv (2 ^ 16)).emod 256).toNat)).set
        (a.toNat + 2) ((((getReg s r1).fdiv (2 ^ 8)).emod 256).toNat)).set
        (a.toNat + 3) (((getReg s r1).emod 256).toNat)) } := by
  have hno : ¬ a + 3 > MAXVAL := by
    simp only [MAXVAL] at hb ⊢; omega
  have hlen1 : a < (s.memory.length : Int) := by omega
  rw [savew, if_neg hno]
  simp only [getRegI_natCast _ _ h1, Option.bind_eq_bind, Option.some_bind]
  rw [pySetByte_of_nonneg _ _ _ ha hlen1]
  simp only [Option.some_bind]
  rw [pySetByte_of_nonneg _ _ _ (by omega) (by simp [List.length_set]; omega)]
  simp only [Option.some_bind]
  rw [pySetByte_of_nonneg _ _ _ (by omega) (by simp [List.length_set]; omega)]
  simp only [Option.some_bind]
  rw [pySetByte_of_nonneg _ _ _ (by omega) (by simp [List.length_set]; omega)]
  simp only [Option.some_bind]
  have ht1 : (a + 1).toNat = a.toNat + 1 := by omega
  have ht2 : (a + 2).toNat = a.toNat + 2 := by omega
  have ht3 : (a + 3).toNat = a.toNat + 3 := by omega
  rw [ht1, ht2, ht3]
  rfl

/-- loadw on an in-range nonnegative address whose four bytes are known
composes them big-endian into the destination register. -/
theorem loadw_eq (s : CPUState) (r1 : Nat) (a : Int) (h1 : r1 < 33)
    (ha : 0 ≤ a) (hb : a + 3 ≤ MAXVAL)
    (b0 b1 b2 b3 : Nat)
    (g0 : s.memory[a.toNat]? = some b0)
    (g1 : s.memory[a.toNat + 1]? = some b1)
    (g2 : s.memory[a.toNat + 2]? = some b2)
    (g3 : s.memory[a.toNat + 3]? = some b3) :
    loadw s (r1 : Int) a = some (setReg s r1
      ((b0 <<< 24 ||| b1 <<< 16 ||| b2 <<< 8 ||| b3 : Nat) : Int)) := by
  have hno : ¬ a + 3 > MAXVAL := by
    simp only [MAXVAL] at hb ⊢; omega
  have ht1 : (a + 1).toNat = a.toNat + 1 := by omega
  have ht2 : (a + 2).toNat = a.toNat + 2 := by omega
  have ht3 : (a + 3).toNat = a.toNat + 3 := by omega
  rw [loadw, if_neg hno]
  rw [pyGetByte_of_nonneg _ _ ha, pyGetByte_of_nonneg _ _ (by omega : (0:Int) ≤ a + 1),
    pyGetByte_of_nonneg _ _ (by omega : (0:Int) ≤ a + 2),
    pyGetByte_of_nonneg _ _ (by omega : (0:Int) ≤ a + 3), ht1, ht2, ht3,
    g0, g1, g2, g3]
  simp only [Option.bind_eq_bind, Option.some_bind]
  rw [setRegI_natCast _ _ _ h1]

theorem regIdx_of_nonneg (a : Int) (h0 : 0 ≤ a) (h1 : a < 33) :
    regIdx a = some a.toNat := by
  have hneg : ¬ a < 0 := by omega
  simp [regIdx, hneg, h0, h1]

theorem getRegI_of_nonneg (s : CPUState) (a : Int) (h0 : 0 ≤ a) (h1 : a < 33) :
    getRegI s a = some (getReg s a.toNat) := by
  simp [getRegI, regIdx_of_nonneg a h0 h1, getReg]

theorem setRegI_of_nonneg (s : CPUState) (a v : Int) (h0 : 0 ≤ a) (h1 : a < 33) :
    setRegI s a v = some (setReg s a.toNat v) := by
  simp [setRegI, regIdx_of_nonneg a h0 h1]

theorem inRange_of_word (w : Int) (h0 : 0 ≤ w) (h1 : w < 2 ^ 32) :
    inRange w := by
  simp only [inRange, MINVAL, MAXVAL]
  omega

theorem pyGetByte_mem (m : List Nat) (i : Int) (b : Nat)
    (h : pyGetByte m i = some b) : b ∈ m := by
  simp only [pyGetByte] at h
  split at h
  · split at h
    · exact absurd h (by simp)
    · exact List.getElem?_mem h
  · exact List.getElem?_mem h

/-- stInv only constrains registers and memory, so updating the
interrupt-controller booleans preserves it. -/
theorem stInv_flags (s : CPUState) (m p e : Bool) (h : stInv s) :
    stInv { s with intr_mask := m, intr_pending := p, intr_event := e } := h

theorem stInv_setReg (s : CPUState) (r : Nat) (v : Int) (h : stInv s)
    (hv : inRange v)
    (hc : r ≠ REG_CARRY ∨ v = 0 ∨ v = 1)
    (ht : r ≠ REG_TRAP ∨ v = 0 ∨ v = 1) :
    stInv (setReg s r v) := by
  obtain ⟨hr, hcy, htp, hmem⟩ := h
  refine ⟨?_, ?_, ?_, hmem⟩
  · intro i hi
    by_cases hir : i = r
    · subst hir; rw [getReg_setReg_self]; exact hv
    · rw [getReg_setReg_ne _ _ hir]; exact hr i hi
  · by_cases hir : REG_CARRY = r
    · subst hir; rw [getReg_setReg_self]
      rcases hc with hne | hv01
      · exact absurd rfl hne
      · exact hv01
    · rw [getReg_setReg_ne _ _ hir]; exact hcy
  · by_cases hir : REG_TRAP = r
    · subst hir; rw [getReg_setReg_self]
      rcases ht with hne | hv01
      · exact absurd rfl hne
      · exact hv01
    · rw [getReg_setReg_ne _ _ hir]; exact htp

theorem stInv_trapState (s : CPUState) (a : Int) (h : stInv s)
    (h0 : 0 ≤ a) (h1 : a ≤ MAXVAL) : stInv (trapState s a) := by
  obtain ⟨hr, hcy, htp, hmem⟩ := h
  have hM : MINVAL ≤ 0 := by decide
  have h1' : (1 : Int) ≤ MAXVAL := by decide
  refine ⟨?_, ?_, ?_, hmem⟩
  · intro i hi
    show inRange (if i = REG_PC then a
      else if i = REG_RET then s.registers REG_PC
      else if i = REG_TRAP then 1 else s.registers i)
    split_ifs with hA hB hC
    · exact ⟨by omega, h1⟩
    · exact hr REG_PC (by norm_num [REG_PC])
    · exact ⟨by omega, h1'⟩
    · exact hr i hi
  · have e : getReg (trapState s a) REG_CARRY = getReg s REG_CARRY := by
      simp [trapState, getReg, REG_CARRY, REG_PC, REG_RET, REG_TRAP]
    rw [e]; exact hcy
  · have e : getReg (trapState s a) REG_TRAP = 1 := by
      simp [trapState, getReg, REG_TRAP, REG_PC, REG_RET]
    rw [e]; exact Or.inr rfl

/-- Escalation unfolding of trap: with the TRAP register nonzero and a
vector other than DTRAP, trap re-invokes itself on DTRAP after setting
the event and masking. -/
theorem trapFuel_esc (fuel : Nat) (s : CPUState) (addr : Int)
    (h0 : getReg s REG_TRAP ≠ 0) (hD : addr ≠ TRAP_DTRAP) :
    trapFuel (fuel + 1) s addr =
      trapFuel fuel (dsi { s with intr_event := true }) TRAP_DTRAP := by
  simp only [trapFuel]
  rw [if_pos]
  exact ⟨h0, hD⟩

/-- Non-escalating unfolding of trap: with TRAP clear (or the vector
being DTRAP) and a nonnegative vector, the result is `trapState`. -/
theorem trapFuel_base (fuel : Nat) (s : CPUState) (addr : Int)
    (h : getReg s REG_TRAP = 0 ∨ addr = TRAP_DTRAP) (ha : 0 ≤ addr) :
    trapFuel (fuel + 2) s addr = trapState s addr := by
  have hcond : ¬(getReg (dsi { s with intr_event := true }) REG_TRAP ≠ 0 ∧
      addr ≠ TRAP_DTRAP) := by
    rcases h with h0 | hD
    · exact fun hc => hc.1 h0
    · exact fun hc => hc.2 hD
  show trapFuel (fuel + 1 + 1) s addr = trapState s addr
  simp only [trapFuel]
  rw [if_neg hcond]
  simp only [jmpFuel]
  rw [if_neg (by omega : ¬addr < 0)]
  cases s
  ext i <;> simp [trapState, setReg, dsi, getReg, REG_PC, REG_RET, REG_TRAP]

/-- Any sufficiently fuelled trap call preserves the state invariant for
a vector in [0, MAXVAL]. -/
theorem stInv_trapFuel (n : Nat) (s : CPUState) (a : Int) (h : stInv s)
    (h0 : 0 ≤ a) (h1 : a ≤ MAXVAL) : stInv (trapFuel (n + 4) s a) := by
  by_cases hc : getReg s REG_TRAP ≠ 0 ∧ a ≠ TRAP_DTRAP
  · have e : trapFuel (n + 3 + 1) s a =
        trapFuel (n + 3) (dsi { s with intr_event := true }) TRAP_DTRAP :=
      trapFuel_esc (n + 3) s a hc.1 hc.2
    have e2 : trapFuel (n + 1 + 2) (dsi { s with intr_event := true })
        TRAP_DTRAP = trapState (dsi { s with intr_event := true })
        TRAP_DTRAP :=
      trapFuel_base (n + 1) _ _ (Or.inr rfl) (by decide)
    show stInv (trapFuel (n + 3 + 1) s a)
    rw [e]
    show stInv (trapFuel (n + 1 + 2) (dsi { s with intr_event := true })
      TRAP_DTRAP)
    rw [e2]
    exact stInv_trapState _ _ h (by decide) (by decide)
  · have hor : getReg s REG_TRAP = 0 ∨ a = TRAP_DTRAP := by
      by_cases hT : getReg s REG_TRAP = 0
      · exact Or.inl hT
      · right; by_contra hD; exact hc ⟨hT, hD⟩
    have e : trapFuel (n + 2 + 2) s a = trapState s a :=
      trapFuel_base (n + 2) s a hor h0
    show stInv (trapFuel (n + 2 + 2) s a)
    rw [e]
    exact stInv_trapState s a h h0 h1

theorem stInv_trap (s : CPUState) (a : Int) (h : stInv s)
    (h0 : 0 ≤ a) (h1 : a ≤ MAXVAL) : stInv (trap s a) :=
  stInv_trapFuel 4 s a h h0 h1

theorem stInv_jmp (s : CPUState) (w : Int) (h : stInv s) (hw : w ≤ MAXVAL) :
    stInv (jmp s w) := by
  show stInv (jmpFuel (7 + 1) s w)
  simp only [jmpFuel]
  split_ifs with hneg
  · exact stInv_trapFuel 3 s TRAP_ILL h (by decide) (by decide)
  · refine stInv_setReg s REG_PC w h ⟨?_, hw⟩ (Or.inl (by norm_num [REG_PC, REG_CARRY]))
      (Or.inl (by norm_num [REG_PC, REG_TRAP]))
    have hM : MINVAL ≤ 0 := by decide
    omega

theorem stInv_intr (s : CPUState) (h : stInv s) : stInv (intr s) := by
  rw [intr]
  split_ifs with hm
  · exact h
  · exact stInv_trap _ _ h (by decide) (by decide)

theorem stInv_eni (s : CPUState) (h : stInv s) : stInv (eni s) := by
  rw [eni]
  split_ifs with hp
  · exact stInv_intr _ h
  · exact h

theorem stInv_ret (s : CPUState) (h : stInv s) : stInv (ret s) := by
  rw [ret]
  refine stInv_eni _ ?_
  have h1 : stInv (setReg s REG_TRAP 0) :=
    stInv_setReg s REG_TRAP 0 h ⟨by decide, by decide⟩
      (Or.inr (Or.inl rfl)) (Or.inr (Or.inl rfl))
  refine stInv_setReg _ REG_PC _ h1 ?_
    (Or.inl (by norm_num [REG_PC, REG_CARRY]))
    (Or.inl (by norm_num [REG_PC, REG_TRAP]))
  exact h1.1 REG_RET (by norm_num [REG_RET])

theorem inRange_ofNat_iff (m : Nat) : inRange (Int.ofNat m) ↔ m < 2 ^ 32 := by
  show MINVAL ≤ Int.ofNat m ∧ Int.ofNat m ≤ MAXVAL ↔ _
  rw [Int.ofNat_eq_coe]
  simp only [MINVAL, MAXVAL]
  omega

theorem inRange_negSucc_iff (m : Nat) :
    inRange (Int.negSucc m) ↔ m < 2 ^ 32 := by
  show MINVAL ≤ Int.negSucc m ∧ Int.negSucc m ≤ MAXVAL ↔ _
  rw [Int.negSucc_eq]
  simp only [MINVAL, MAXVAL]
  omega

/-- Python `&` (two's-complement bitwise and) keeps 33-bit-signed-range
values in range. -/
theorem land_inRange (a b : Int) (ha : inRange a) (hb : inRange b) :
    inRange (Int.land a b) := by
  obtain ⟨m⟩ | ⟨m⟩ := a <;> obtain ⟨n⟩ | ⟨n⟩ := b
  · rw [inRange_ofNat_iff] at hb
    show inRange (Int.ofNat (m &&& n))
    rw [inRange_ofNat_iff]
    exact Nat.and_lt_two_pow m hb
  · rw [inRange_ofNat_iff] at ha
    rw [inRange_negSucc_iff] at hb
    show inRange (Int.ofNat (Nat.ldiff m n))
    rw [inRange_ofNat_iff]
    show Nat.bitwise _ m n < 2 ^ 32
    exact Nat.bitwise_lt_two_pow ha hb
  · rw [inRange_negSucc_iff] at ha
    rw [inRange_ofNat_iff] at hb
    show inRange (Int.ofNat (Nat.ldiff n m))
    rw [inRange_ofNat_iff]
    show Nat.bitwise _ n m < 2 ^ 32
    exact Nat.bitwise_lt_two_pow hb ha
  · rw [inRange_negSucc_iff] at ha hb
    show inRange (Int.negSucc (m ||| n))
    rw [inRange_negSucc_iff]
    exact Nat.or_lt_two_pow ha hb

/-- Python `|` keeps 33-bit-signed-range values in range. -/
theorem lor_inRange (a b : Int) (ha : inRange a) (hb : inRange b) :
    inRange (Int.lor a b) := by
  obtain ⟨m⟩ | ⟨m⟩ := a <;> obtain ⟨n⟩ | ⟨n⟩ := b
  · rw [inRange_ofNat_iff] at ha hb
    show inRange (Int.ofNat (m ||| n))
    rw [inRange_ofNat_iff]
    exact Nat.or_lt_two_pow ha hb
  · rw [inRange_ofNat_iff] at ha
    rw [inRange_negSucc_iff] at hb
    show inRange (Int.negSucc (Nat.ldiff n m))
    rw [inRange_negSucc_iff]
    show Nat.bitwise _ n m < 2 ^ 32
    exact Nat.bitwise_lt_two_pow hb ha
  · rw [inRange_negSucc_iff] at ha
    rw [inRange_ofNat_iff] at hb
    show inRange (Int.negSucc (Nat.ldiff m n))
    rw [inRange_negSucc_iff]
    show Nat.bitwise _ m n < 2 ^ 32
    exact Nat.bitwise_lt_two_pow ha hb
  · rw [inRange_negSucc_iff] at ha hb
    show inRange (Int.negSucc (m &&& n))
    rw [inRange_negSucc_iff]
    exact Nat.and_lt_two_pow m hb

/-- Python `^` keeps 33-bit-signed-range values in range. -/
theorem xor_inRange (a b : Int) (ha : inRange a) (hb : inRange b) :
    inRange (Int.xor a b) := by
  obtain ⟨m⟩ | ⟨m⟩ := a <;> obtain ⟨n⟩ | ⟨n⟩ := b
  · rw [inRange_ofNat_iff] at ha hb
    show inRange (Int.ofNat (m ^^^ n))
    rw [inRange_ofNat_iff]
    exact Nat.xor_lt_two_pow ha hb
  · rw [inRange_ofNat_iff] at ha
    rw [inRange_negSucc_iff] at hb
    show inRange (Int.negSucc (m ^^^ n))
    rw [inRange_negSucc_iff]
    exact Nat.xor_lt_two_pow ha hb
  · rw [inRange_negSucc_iff] at ha
    rw [inRange_ofNat_iff] at hb
    show inRange (Int.negSucc (m ^^^ n))
    rw [inRange_negSucc_iff]
    exact Nat.xor_lt_two_pow ha hb
  · rw [inRange_negSucc_iff] at ha hb
    show inRange (Int.ofNat (m ^^^ n))
    rw [inRange_ofNat_iff]
    exact Nat.xor_lt_two_pow ha hb

/-- Python `~` keeps 33-bit-signed-range values in range. -/
theorem lnot_inRange (a : Int) (ha : inRange a) : inRange (Int.lnot a) := by
  obtain ⟨m⟩ | ⟨m⟩ := a
  · rw [inRange_ofNat_iff] at ha
    show inRange (Int.negSucc m)
    rw [inRange_negSucc_iff]
    exact ha
  · rw [inRange_negSucc_iff] at ha
    show inRange (Int.ofNat m)
    rw [inRange_ofNat_iff]
    exact ha

/-- Floor division by a positive divisor keeps range values in range. -/
theorem fdiv_inRange (a b : Int) (ha : inRange a) (hb : 0 < b) :
    inRange (a.fdiv b) := by
  rw [Int.fdiv_eq_ediv _ (le_of_lt hb)]
  obtain ⟨haL, haU⟩ := ha
  have hM : MINVAL ≤ 0 := by decide
  have hMx : (0 : Int) ≤ MAXVAL := by decide
  constructor
  · rw [Int.le_ediv_iff_mul_le hb]
    have h1 : MINVAL * b ≤ MINVAL * 1 :=
      mul_le_mul_of_nonpos_left (by omega) hM
    rw [mul_one] at h1
    omega
  · by_cases ha0 : 0 ≤ a
    · calc a / b ≤ a := Int.ediv_le_self b ha0
        _ ≤ MAXVAL := haU
    · have hle : a / b ≤ 0 := by
        by_contra hpos
        push_neg at hpos
        have h1 : (1 : Int) ≤ a / b := hpos
        have h2 := (Int.le_ediv_iff_mul_le hb).1 h1
        rw [one_mul] at h2
        omega
      omega

theorem stInv_liftOp (X : Option CPUState)
    (hX : ∀ t, X = some t → stInv t) :
    ∀ s2, stateOf (liftOp X) = some s2 → stInv s2 := by
  intro s2 h
  cases X with
  | none => simp [liftOp, stateOf] at h
  | some t =>
    simp only [liftOp, stateOf, Option.some.injEq] at h
    exact h ▸ hX t rfl

theorem emod256_toNat_lt (x : Int) : (x.emod 256).toNat < 256 := by
  show (x % 256).toNat < 256
  omega

theorem pySetByte_valid (m : List Nat) (i : Int) (v : Nat) (m2 : List Nat)
    (h : pySetByte m i v = some m2) (hm : ∀ b ∈ m, b < 256) (hv : v < 256) :
    ∀ b ∈ m2, b < 256 := by
  simp only [pySetByte] at h
  split at h
  all_goals split at h
  all_goals first
    | (simp only [Option.some.injEq] at h
       subst h
       intro b hb
       rcases List.mem_or_eq_of_mem_set hb with hmem | rfl
       · exact hm b hmem
       · exact hv)
    | exact absurd h (by simp)

theorem inRange_fmod_MAXVAL (x : Int) : inRange (x.fmod MAXVAL) := by
  have h1 := Int.fmod_nonneg' x (by decide : (0 : Int) < MAXVAL)
  have h2 := Int.fmod_lt_of_pos x (by decide : (0 : Int) < MAXVAL)
  have hM : MINVAL ≤ 0 := by decide
  exact ⟨by omega, by omega⟩

theorem inRange_fmod_MINVAL (x : Int) : inRange (x.fmod MINVAL) := by
  have h := fmod_neg_bounds x (by decide : MINVAL < (0 : Int))
  have hM : (0 : Int) ≤ MAXVAL := by decide
  exact ⟨by omega, by omega⟩

theorem carry_ite_eq (c : Prop) [Decidable c] :
    (if c then (1 : Int) else 0) = 0 ∨ (if c then (1 : Int) else 0) = 1 := by
  split_ifs <;> simp

theorem stInv_add (s : CPUState) (a1 a2 a3 : Int) (hs : stInv s)
    (h1 : 0 ≤ a1) (h1b : a1 < 33) (h2 : 0 ≤ a2) (h2b : a2 < 33)
    (h3 : 0 ≤ a3) (h3b : a3 < 33) (h3c : a3 ≠ 3) (h3t : a3 ≠ 5) :
    ∀ t, add s a1 a2 a3 = some t → stInv t := by
  intro t h
  simp only [add, getRegI_of_nonneg _ _ h1 h1b, getRegI_of_nonneg _ _ h2 h2b,
    setRegI_of_nonneg _ _ _ h3 h3b, Option.bind_eq_bind, Option.some_bind,
    pure, Option.some.injEq] at h
  subst h
  refine stInv_setReg _ _ _ ?_
    (by split_ifs <;> exact ⟨by decide, by decide⟩)
    (Or.inr (carry_ite_eq _)) (Or.inl (by norm_num [REG_CARRY, REG_TRAP]))
  exact stInv_setReg _ _ _ hs (inRange_fmod_MAXVAL _)
    (Or.inl (by simp only [REG_CARRY]; omega))
    (Or.inl (by simp only [REG_TRAP]; omega))

theorem stInv_sub (s : CPUState) (a1 a2 a3 : Int) (hs : stInv s)
    (h1 : 0 ≤ a1) (h1b : a1 < 33) (h2 : 0 ≤ a2) (h2b : a2 < 33)
    (h3 : 0 ≤ a3) (h3b : a3 < 33) (h3c : a3 ≠ 3) (h3t : a3 ≠ 5) :
    ∀ t, sub s a1 a2 a3 = some t → stInv t := by
  intro t h
  simp only [sub, getRegI_of_nonneg _ _ h1 h1b, getRegI_of_nonneg _ _ h2 h2b,
    setRegI_of_nonneg _ _ _ h3 h3b, Option.bind_eq_bind, Option.some_bind,
    pure, Option.some.injEq] at h
  subst h
  refine stInv_setReg _ _ _ ?_
    (by split_ifs <;> exact ⟨by decide, by decide⟩)
    (Or.inr (carry_ite_eq _)) (Or.inl (by norm_num [REG_CARRY, REG_TRAP]))
  exact stInv_setReg _ _ _ hs (inRange_fmod_MINVAL _)
    (Or.inl (by simp only [REG_CARRY]; omega))
    (Or.inl (by simp only [REG_TRAP]; omega))

theorem stInv_mul (s : CPUState) (a1 a2 a3 : Int) (hs : stInv s)
    (h1 : 0 ≤ a1) (h1b : a1 < 33) (h2 : 0 ≤ a2) (h2b : a2 < 33)
    (h3 : 0 ≤ a3) (h3b : a3 < 33) (h3c : a3 ≠ 3) (h3t : a3 ≠ 5) :
    ∀ t, mul s a1 a2 a3 = some t → stInv t := by
  intro t h
  simp only [mul, getRegI_of_nonneg _ _ h1 h1b, getRegI_of_nonneg _ _ h2 h2b,
    setRegI_of_nonneg _ _ _ h3 h3b, Option.bind_eq_bind, Option.some_bind,
    pure, Option.some.injEq] at h
  subst h
  refine stInv_setReg _ _ _ ?_
    (by split_ifs <;> exact ⟨by decide, by decide⟩)
    (Or.inr (carry_ite_eq _)) (Or.inl (by norm_num [REG_CARRY, REG_TRAP]))
  exact stInv_setReg _ _ _ hs (inRange_fmod_MAXVAL _)
    (Or.inl (by simp only [REG_CARRY]; omega))
    (Or.inl (by simp only [REG_TRAP]; omega))

theorem stInv_div (s : CPUState) (a1 a2 a3 : Int) (hs : stInv s)
    (h1 : 0 ≤ a1) (h1b : a1 < 33) (h2 : 0 ≤ a2) (h2b : a2 < 33)
    (h3 : 0 ≤ a3) (h3b : a3 < 33) (h3c : a3 ≠ 3) (h3t : a3 ≠ 5)
    (hdvsr : 0 ≤ getReg s a2.toNat) :
    ∀ t, div s a1 a2 a3 = some t → stInv t := by
  intro t h
  rw [div, getRegI_of_nonneg _ _ h2 h2b] at h
  simp only [Option.bind_eq_bind, Option.some_bind] at h
  split_ifs at h with hz
  · simp only [pure, Option.some.injEq] at h
    subst h
    exact stInv_trap _ _ hs (by decide) (by decide)
  · simp only [getRegI_of_nonneg _ _ h1 h1b, setRegI_of_nonneg _ _ _ h3 h3b,
      Option.bind_eq_bind, Option.some_bind, pure, Option.some.injEq] at h
    subst h
    refine stInv_setReg _ _ _ ?_ ⟨by decide, by decide⟩
      (Or.inr (Or.inl rfl)) (Or.inl (by norm_num [REG_CARRY, REG_TRAP]))
    refine stInv_setReg _ _ _ hs ?_
      (Or.inl (by simp only [REG_CARRY]; omega))
      (Or.inl (by simp only [REG_TRAP]; omega))
    exact fdiv_inRange _ _ (hs.1 a1.toNat (by omega)) (by omega)

theorem stInv_resvd (s : CPUState) (val : Int) (hs : stInv s)
    (h0 : 0 ≤ val) (h1 : val < 2 ^ 32) : stInv (setReg s REG_RESVD val) :=
  stInv_setReg s REG_RESVD val hs (inRange_of_word val h0 h1)
    (Or.inl (by norm_num [REG_RESVD, REG_CARRY]))
    (Or.inl (by norm_num [REG_RESVD, REG_TRAP]))

theorem stInv_loadw (s : CPUState) (a1 addr : Int) (hs : stInv s)
    (h1 : 0 ≤ a1) (h1b : a1 < 33) (h1c : a1 ≠ 3) (h1t : a1 ≠ 5) :
    ∀ t, loadw s a1 addr = some t → stInv t := by
  intro t h
  rw [loadw] at h
  split_ifs at h with hbound
  · simp only [Option.some.injEq] at h
    subst h
    exact stInv_trap _ _ hs (by decide) (by decide)
  · cases hg0 : pyGetByte s.memory addr with
    | none => rw [hg0] at h; simp at h
    | some b0 =>
    rw [hg0] at h
    simp only [Option.bind_eq_bind, Option.some_bind] at h
    cases hg1 : pyGetByte s.memory (addr + 1) with
    | none => rw [hg1] at h; simp at h
    | some b1 =>
    rw [hg1] at h
    simp only [Option.some_bind] at h
    cases hg2 : pyGetByte s.memory (addr + 2) with
    | none => rw [hg2] at h; simp at h
    | some b2 =>
    rw [hg2] at h
    simp only [Option.some_bind] at h
    cases hg3 : pyGetByte s.memory (addr + 3) with
    | none => rw [hg3] at h; simp at h
    | some b3 =>
    rw [hg3] at h
    simp only [Option.some_bind, setRegI_of_nonneg _ _ _ h1 h1b,
      Option.some.injEq] at h
    subst h
    have hb0 : b0 < 256 := hs.2.2.2 b0 (pyGetByte_mem _ _ _ hg0)
    have hb1 : b1 < 256 := hs.2.2.2 b1 (pyGetByte_mem _ _ _ hg1)
    have hb2 : b2 < 256 := hs.2.2.2 b2 (pyGetByte_mem _ _ _ hg2)
    have hb3 : b3 < 256 := hs.2.2.2 b3 (pyGetByte_mem _ _ _ hg3)
    refine stInv_setReg _ _ _ hs ?_ (Or.inl (by simp only [REG_CARRY]; omega))
      (Or.inl (by simp only [REG_TRAP]; omega))
    refine inRange_of_word _ (by positivity) ?_
    have hc := loadw_bytes_eq b0 b1 b2 b3 hb0 hb1 hb2 hb3
    have hcompN : (b0 <<< 24 ||| b1 <<< 16 ||| b2 <<< 8 ||| b3 : Nat) <
        2 ^ 32 := by rw [hc]; omega
    exact_mod_cast hcompN

theorem stInv_loadwr (s : CPUState) (a1 a2 : Int) (hs : stInv s)
    (h1 : 0 ≤ a1) (h1b : a1 < 33) (h1c : a1 ≠ 3) (h1t : a1 ≠ 5)
    (h2 : 0 ≤ a2) (h2b : a2 < 33) :
    ∀ t, loadwr s a1 a2 = some t → stInv t := by
  intro t h
  rw [loadwr] at h
  simp only [getRegI_of_nonneg _ _ h2 h2b, Option.bind_eq_bind,
    Option.some_bind] at h
  exact stInv_loadw _ _ _ hs h1 h1b h1c h1t t h

theorem stInv_loadwi (s : CPUState) (a1 val : Int) (hs : stInv s)
    (h1 : 0 ≤ a1) (h1b : a1 < 33) (h1c : a1 ≠ 3) (h1t : a1 ≠ 5)
    (hv0 : 0 ≤ val) (hv1 : val < 2 ^ 32) :
    ∀ t, loadwi s a1 val = some t → stInv t := by
  intro t h
  rw [loadwi] at h
  rw [setRegI_of_nonneg _ _ _ h1 h1b] at h
  simp only [Option.some.injEq] at h
  subst h
  exact stInv_setReg _ _ _ hs (inRange_of_word val hv0 hv1)
    (Or.inl (by simp only [REG_CARRY]; omega))
    (Or.inl (by simp only [REG_TRAP]; omega))

theorem stInv_savew (s : CPUState) (a1 addr : Int) (hs : stInv s)
    (h1 : 0 ≤ a1) (h1b : a1 < 33) :
    ∀ t, savew s a1 addr = some t → stInv t := by
  intro t h
  rw [savew] at h
  split_ifs at h with hbound
  · simp only [Option.some.injEq] at h
    subst h
    exact stInv_trap _ _ hs (by decide) (by decide)
  · simp only [getRegI_of_nonneg _ _ h1 h1b, Option.bind_eq_bind,
      Option.some_bind] at h
    cases hm0 : pySetByte s.memory addr
        ((((getReg s a1.toNat).fdiv (2 ^ 24)).emod 256).toNat) with
    | none => rw [hm0] at h; simp at h
    | some m0 =>
    rw [hm0] at h
    simp only [Option.some_bind] at h
    cases hm1 : pySetByte m0 (addr + 1)
        ((((getReg s a1.toNat).fdiv (2 ^ 16)).emod 256).toNat) with
    | none => rw [hm1] at h; simp at h
    | some m1 =>
    rw [hm1] at h
    simp only [Option.some_bind] at h
    cases hm2 : pySetByte m1 (addr + 2)
        ((((getReg s a1.toNat).fdiv (2 ^ 8)).emod 256).toNat) with
    | none => rw [hm2] at h; simp at h
    | some m2 =>
    rw [hm2] at h
    simp only [Option.some_bind] at h
    cases hm3 : pySetByte m2 (addr + 3)
        (((getReg s a1.toNat).emod 256).toNat) with
    | none => rw [hm3] at h; simp at h
    | some m3 =>
    rw [hm3] at h
    simp only [Option.some_bind, pure, Option.some.injEq] at h
    subst h
    obtain ⟨hr, hcy, htp, hmem⟩ := hs
    refine ⟨hr, hcy, htp, ?_⟩
    have v0 := pySetByte_valid _ _ _ _ hm0 hmem (emod256_toNat_lt _)
    have v1 := pySetByte_valid _ _ _ _ hm1 v0 (emod256_toNat_lt _)
    have v2 := pySetByte_valid _ _ _ _ hm2 v1 (emod256_toNat_lt _)
    exact pySetByte_valid _ _ _ _ hm3 v2 (emod256_toNat_lt _)

theorem stInv_savewr (s : CPUState) (a1 a2 : Int) (hs : stInv s)
    (h1 : 0 ≤ a1) (h1b : a1 < 33) (h2 : 0 ≤ a2) (h2b : a2 < 33) :
    ∀ t, savewr s a1 a2 = some t → stInv t := by
  intro t h
  rw [savewr] at h
  simp only [getRegI_of_nonneg _ _ h2 h2b, Option.bind_eq_bind,
    Option.some_bind] at h
  exact stInv_savew _ _ _ hs h1 h1b t h

theorem stInv_savewi (s : CPUState) (val addr : Int) (hs : stInv s)
    (hv0 : 0 ≤ val) (hv1 : val < 2 ^ 32) :
    ∀ t, savewi s val addr = some t → stInv t := by
  intro t h
  rw [savewi] at h
  exact stInv_savew _ _ _ (stInv_resvd s val hs hv0 hv1)
    (by norm_num) (by norm_num [REG_RESVD]) t h

theorem stInv_loadb (s : CPUState) (a1 addr : Int) (hs : stInv s)
    (h1 : 0 ≤ a1) (h1b : a1 < 33) (h1c : a1 ≠ 3) (h1t : a1 ≠ 5) :
    ∀ t, loadb s a1 addr = some t → stInv t := by
  intro t h
  rw [loadb] at h
  cases hg : pyGetByte s.memory addr with
  | none => rw [hg] at h; simp at h
  | some b =>
    rw [hg] at h
    simp only [Option.bind_eq_bind, Option.some_bind,
      setRegI_of_nonneg _ _ _ h1 h1b, Option.some.injEq] at h
    subst h
    have hb : b < 256 := hs.2.2.2 b (pyGetByte_mem _ _ _ hg)
    refine stInv_setReg _ _ _ hs ?_ (Or.inl (by simp only [REG_CARRY]; omega))
      (Or.inl (by simp only [REG_TRAP]; omega))
    exact inRange_of_word _ (by positivity) (by exact_mod_cast by omega)

theorem stInv_loadbr (s : CPUState) (a1 a2 : Int) (hs : stInv s)
    (h1 : 0 ≤ a1) (h1b : a1 < 33) (h1c : a1 ≠ 3) (h1t : a1 ≠ 5)
    (h2 : 0 ≤ a2) (h2b : a2 < 33) :
    ∀ t, loadbr s a1 a2 = some t → stInv t := by
  intro t h
  rw [loadbr] at h
  simp only [getRegI_of_nonneg _ _ h2 h2b, Option.bind_eq_bind,
    Option.some_bind] at h
  exact stInv_loadb _ _ _ hs h1 h1b h1c h1t t h

theorem stInv_loadbi (s : CPUState) (a1 val : Int) (hs : stInv s)
    (h1 : 0 ≤ a1) (h1b : a1 < 33) (h1c : a1 ≠ 3) (h1t : a1 ≠ 5) :
    ∀ t, loadbi s a1 val = some t → stInv t := by
  intro t h
  rw [loadbi] at h
  rw [setRegI_of_nonneg _ _ _ h1 h1b] at h
  simp only [Option.some.injEq] at h
  subst h
  refine stInv_setReg _ _ _ hs ?_ (Or.inl (by simp only [REG_CARRY]; omega))
    (Or.inl (by simp only [REG_TRAP]; omega))
  have hlo : (0 : Int) ≤ val.emod 256 :=
    Int.emod_nonneg val (by norm_num)
  have hhi : val.emod 256 < 256 :=
    Int.emod_lt_of_pos val (by norm_num)
  exact inRange_of_word _ hlo (by omega)

theorem stInv_saveb (s : CPUState) (a1 addr : Int) (hs : stInv s)
    (h1 : 0 ≤ a1) (h1b : a1 < 33) :
    ∀ t, saveb s a1 addr = some t → stInv t := by
  intro t h
  rw [saveb] at h
  simp only [getRegI_of_nonneg _ _ h1 h1b, Option.bind_eq_bind,
    Option.some_bind] at h
  cases hm0 : pySetByte s.memory addr (((getReg s a1.toNat).emod 256).toNat) with
  | none => rw [hm0] at h; simp at h
  | some m0 =>
    rw [hm0] at h
    simp only [Option.some_bind, pure, Option.some.injEq] at h
    subst h
    obtain ⟨hr, hcy, htp, hmem⟩ := hs
    exact ⟨hr, hcy, htp, pySetByte_valid _ _ _ _ hm0 hmem (emod256_toNat_lt _)⟩

theorem stInv_savebr (s : CPUState) (a1 a2 : Int) (hs : stInv s)
    (h1 : 0 ≤ a1) (h1b : a1 < 33) (h2 : 0 ≤ a2) (h2b : a2 < 33) :
    ∀ t, savebr s a1 a2 = some t → stInv t := by
  intro t h
  rw [savebr] at h
  simp only [getRegI_of_nonneg _ _ h2 h2b, Option.bind_eq_bind,
    Option.some_bind] at h
  exact stInv_saveb _ _ _ hs h1 h1b t h

theorem stInv_savebi (s : CPUState) (val addr : Int) (hs : stInv s)
    (hv0 : 0 ≤ val) (hv1 : val < 2 ^ 32) :
    ∀ t, savebi s val addr = some t → stInv t := by
  intro t h
  rw [savebi] at h
  exact stInv_saveb _ _ _ (stInv_resvd s val hs hv0 hv1)
    (by norm_num) (by norm_num [REG_RESVD]) t h

theorem stInv_jmpeq (s : CPUState) (a1 a2 w : Int) (hs : stInv s)
    (h1 : 0 ≤ a1) (h1b : a1 < 33) (h2 : 0 ≤ a2) (h2b : a2 < 33)
    (hw : w ≤ MAXVAL) :
    ∀ t, jmpeq s a1 a2 w = some t → stInv t := by
  intro t h
  rw [jmpeq] at h
  simp only [getRegI_of_nonneg _ _ h1 h1b, getRegI_of_nonneg _ _ h2 h2b,
    Option.bind_eq_bind, Option.some_bind] at h
  split_ifs at h <;> (simp only [pure, Option.some.injEq] at h; subst h)
  · exact stInv_jmp _ _ hs hw
  · exact hs

theorem stInv_jmpne (s : CPUState) (a1 a2 w : Int) (hs : stInv s)
    (h1 : 0 ≤ a1) (h1b : a1 < 33) (h2 : 0 ≤ a2) (h2b : a2 < 33)
    (hw : w ≤ MAXVAL) :
    ∀ t, jmpne s a1 a2 w = some t → stInv t := by
  intro t h
  rw [jmpne] at h
  simp only [getRegI_of_nonneg _ _ h1 h1b, getRegI_of_nonneg _ _ h2 h2b,
    Option.bind_eq_bind, Option.some_bind] at h
  split_ifs at h <;> (simp only [pure, Option.some.injEq] at h; subst h)
  · exact stInv_jmp _ _ hs hw
  · exact hs

theorem stInv_jmpgt (s : CPUState) (a1 a2 w : Int) (hs : stInv s)
    (h1 : 0 ≤ a1) (h1b : a1 < 33) (h2 : 0 ≤ a2) (h2b : a2 < 33)
    (hw : w ≤ MAXVAL) :
    ∀ t, jmpgt s a1 a2 w = some t → stInv t := by
  intro t h
  rw [jmpgt] at h
  simp only [getRegI_of_nonneg _ _ h1 h1b, getRegI_of_nonneg _ _ h2 h2b,
    Option.bind_eq_bind, Option.some_bind] at h
  split_ifs at h <;> (simp only [pure, Option.some.injEq] at h; subst h)
  · exact stInv_jmp _ _ hs hw
  · exact hs

theorem stInv_jmpge (s : CPUState) (a1 a2 w : Int) (hs : stInv s)
    (h1 : 0 ≤ a1) (h1b : a1 < 33) (h2 : 0 ≤ a2) (h2b : a2 < 33)
    (hw : w ≤ MAXVAL) :
    ∀ t, jmpge s a1 a2 w = some t → stInv t := by
  intro t h
  rw [jmpge] at h
  simp only [getRegI_of_nonneg _ _ h1 h1b, getRegI_of_nonneg _ _ h2 h2b,
    Option.bind_eq_bind, Option.some_bind] at h
  split_ifs at h <;> (simp only [pure, Option.some.injEq] at h; subst h)
  · exact stInv_jmp _ _ hs hw
  · exact hs

theorem stInv_jmplt (s : CPUState) (a1 a2 w : Int) (hs : stInv s)
    (h1 : 0 ≤ a1) (h1b : a1 < 33) (h2 : 0 ≤ a2) (h2b : a2 < 33)
    (hw : w ≤ MAXVAL) :
    ∀ t, jmplt s a1 a2 w = some t → stInv t := by
  intro t h
  rw [jmplt] at h
  simp only [getRegI_of_nonneg _ _ h1 h1b, getRegI_of_nonneg _ _ h2 h2b,
    Option.bind_eq_bind, Option.some_bind] at h
  split_ifs at h <;> (simp only [pure, Option.some.injEq] at h; subst h)
  · exact stInv_jmp _ _ hs hw
  · exact hs

theorem stInv_jmple (s : CPUState) (a1 a2 w : Int) (hs : stInv s)
    (h1 : 0 ≤ a1) (h1b : a1 < 33) (h2 : 0 ≤ a2) (h2b : a2 < 33)
    (hw : w ≤ MAXVAL) :
    ∀ t, jmple s a1 a2 w = some t → stInv t := by
  intro t h
  rw [jmple] at h
  simp only [getRegI_of_nonneg _ _ h1 h1b, getRegI_of_nonneg _ _ h2 h2b,
    Option.bind_eq_bind, Option.some_bind] at h
  split_ifs at h <;> (simp only [pure, Option.some.injEq] at h; subst h)
  · exact stInv_jmp _ _ hs hw
  · exact hs

theorem stInv_jmpeqi (s : CPUState) (a1 val w : Int) (hs : stInv s)
    (h1 : 0 ≤ a1) (h1b : a1 < 33) (hv0 : 0 ≤ val) (hv1 : val < 2 ^ 32)
    (hw : w ≤ MAXVAL) :
    ∀ t, jmpeqi s a1 val w = some t → stInv t := by
  intro t h
  rw [jmpeqi] at h
  exact stInv_jmpeq _ _ _ _ (stInv_resvd s val hs hv0 hv1) h1 h1b
    (by norm_num) (by norm_num [REG_RESVD]) hw t h

theorem stInv_jmpnei (s : CPUState) (a1 val w : Int) (hs : stInv s)
    (h1 : 0 ≤ a1) (h1b : a1 < 33) (hv0 : 0 ≤ val) (hv1 : val < 2 ^ 32)
    (hw : w ≤ MAXVAL) :
    ∀ t, jmpnei s a1 val w = some t → stInv t := by
  intro t h
  rw [jmpnei] at h
  exact stInv_jmpne _ _ _ _ (stInv_resvd s val hs hv0 hv1) h1 h1b
    (by norm_num) (by norm_num [REG_RESVD]) hw t h

theorem stInv_jmpgti (s : CPUState) (a1 val w : Int) (hs : stInv s)
    (h1 : 0 ≤ a1) (h1b : a1 < 33) (hv0 : 0 ≤ val) (hv1 : val < 2 ^ 32)
    (hw : w ≤ MAXVAL) :
    ∀ t, jmpgti s a1 val w = some t → stInv t := by
  intro t h
  rw [jmpgti] at h
  exact stInv_jmpgt _ _ _ _ (stInv_resvd s val hs hv0 hv1) h1 h1b
    (by norm_num) (by norm_num [REG_RESVD]) hw t h

theorem stInv_jmpgei (s : CPUState) (a1 val w : Int) (hs : stInv s)
    (h1 : 0 ≤ a1) (h1b : a1 < 33) (hv0 : 0 ≤ val) (hv1 : val < 2 ^ 32)
    (hw : w ≤ MAXVAL) :
    ∀ t, jmpgei s a1 val w = some t → stInv t := by
  intro t h
  rw [jmpgei] at h
  exact stInv_jmpge _ _ _ _ (stInv_resvd s val hs hv0 hv1) h1 h1b
    (by norm_num) (by norm_num [REG_RESVD]) hw t h

theorem stInv_jmplti (s : CPUState) (a1 val w : Int) (hs : stInv s)
    (h1 : 0 ≤ a1) (h1b : a1 < 33) (hv0 : 0 ≤ val) (hv1 : val < 2 ^ 32)
    (hw : w ≤ MAXVAL) :
    ∀ t, jmplti s a1 val w = some t → stInv t := by
  intro t h
  rw [jmplti] at h
  exact stInv_jmplt _ _ _ _ (stInv_resvd s val hs hv0 hv1) h1 h1b
    (by norm_num) (by norm_num [REG_RESVD]) hw t h

theorem stInv_jmplei (s : CPUState) (a1 val w : Int) (hs : stInv s)
    (h1 : 0 ≤ a1) (h1b : a1 < 33) (hv0 : 0 ≤ val) (hv1 : val < 2 ^ 32)
    (hw : w ≤ MAXVAL) :
    ∀ t, jmplei s a1 val w = some t → stInv t := by
  intro t h
  rw [jmplei] at h
  exact stInv_jmple _ _ _ _ (stInv_resvd s val hs hv0 hv1) h1 h1b
    (by norm_num) (by norm_num [REG_RESVD]) hw t h

theorem stInv_addi (s : CPUState) (a1 val a2 : Int) (hs : stInv s)
    (h1 : 0 ≤ a1) (h1b : a1 < 33) (hv0 : 0 ≤ val) (hv1 : val < 2 ^ 32)
    (h2 : 0 ≤ a2) (h2b : a2 < 33) (h2c : a2 ≠ 3) (h2t : a2 ≠ 5) :
    ∀ t, addi s a1 val a2 = some t → stInv t := by
  intro t h
  rw [addi] at h
  exact stInv_add _ _ _ _ (stInv_resvd s val hs hv0 hv1) h1 h1b
    (by norm_num) (by norm_num [REG_RESVD]) h2 h2b h2c h2t t h

theorem stInv_subi (s : CPUState) (a1 val a2 : Int) (hs : stInv s)
    (h1 : 0 ≤ a1) (h1b : a1 < 33) (hv0 : 0 ≤ val) (hv1 : val < 2 ^ 32)
    (h2 : 0 ≤ a2) (h2b : a2 < 33) (h2c : a2 ≠ 3) (h2t : a2 ≠ 5) :
    ∀ t, subi s a1 val a2 = some t → stInv t := by
  intro t h
  rw [subi] at h
  exact stInv_sub _ _ _ _ (stInv_resvd s val hs hv0 hv1) h1 h1b
    (by norm_num) (by norm_num [REG_RESVD]) h2 h2b h2c h2t t h

theorem stInv_muli (s : CPUState) (a1 val a2 : Int) (hs : stInv s)
    (h1 : 0 ≤ a1) (h1b : a1 < 33) (hv0 : 0 ≤ val) (hv1 : val < 2 ^ 32)
    (h2 : 0 ≤ a2) (h2b : a2 < 33) (h2c : a2 ≠ 3) (h2t : a2 ≠ 5) :
    ∀ t, muli s a1 val a2 = some t → stInv t := by
  intro t h
  rw [muli] at h
  exact stInv_mul _ _ _ _ (stInv_resvd s val hs hv0 hv1) h1 h1b
    (by norm_num) (by norm_num [REG_RESVD]) h2 h2b h2c h2t t h

theorem stInv_divi (s : CPUState) (a1 val a2 : Int) (hs : stInv s)
    (h1 : 0 ≤ a1) (h1b : a1 < 33) (hv0 : 0 ≤ val) (hv1 : val < 2 ^ 32)
    (h2 : 0 ≤ a2) (h2b : a2 < 33) (h2c : a2 ≠ 3) (h2t : a2 ≠ 5) :
    ∀ t, divi s a1 val a2 = some t → stInv t := by
  intro t h
  rw [divi] at h
  have hd : getReg (setReg s REG_RESVD val)
      (((REG_RESVD : Nat) : Int)).toNat = val := by
    rw [Int.toNat_natCast, getReg_setReg_self]
  exact stInv_div _ _ _ _ (stInv_resvd s val hs hv0 hv1) h1 h1b
    (by norm_num) (by norm_num [REG_RESVD]) h2 h2b h2c h2t
    (by rw [hd]; exact hv0) t h

theorem stInv_swap (s : CPUState) (a1 a2 : Int) (hs : stInv s)
    (h1 : 0 ≤ a1) (h1b : a1 < 33) (h1c : a1 ≠ 3) (h1t : a1 ≠ 5)
    (h2 : 0 ≤ a2) (h2b : a2 < 33) (h2c : a2 ≠ 3) (h2t : a2 ≠ 5) :
    ∀ t, swap s a1 a2 = some t → stInv t := by
  intro t h
  simp only [swap, getRegI_of_nonneg _ _ h1 h1b,
    setRegI_of_nonneg _ _ _ h1 h1b, Option.bind_eq_bind, Option.some_bind] at h
  rw [setRegI_of_nonneg _ _ _ h2 h2b] at h
  simp only [Option.some.injEq] at h
  subst h
  have hM : MINVAL ≤ 0 := by decide
  have hMx : (33 : Int) ≤ MAXVAL := by decide
  refine stInv_setReg _ _ _ ?_ ?_ (Or.inl (by simp only [REG_CARRY]; omega))
    (Or.inl (by simp only [REG_TRAP]; omega))
  · exact stInv_setReg _ _ _ hs ⟨by omega, by omega⟩
      (Or.inl (by simp only [REG_CARRY]; omega))
      (Or.inl (by simp only [REG_TRAP]; omega))
  · exact hs.1 a1.toNat (by omega)

theorem stInv_copy (s : CPUState) (a1 a2 : Int) (hs : stInv s)
    (h1 : 0 ≤ a1) (h1b : a1 < 33) (h1c : a1 ≠ 3) (h1t : a1 ≠ 5)
    (h2 : 0 ≤ a2) (h2b : a2 < 33) :
    ∀ t, copy s a1 a2 = some t → stInv t := by
  intro t h
  simp only [copy, getRegI_of_nonneg _ _ h2 h2b,
    setRegI_of_nonneg _ _ _ h1 h1b, Option.bind_eq_bind, Option.some_bind,
    Option.some.injEq] at h
  subst h
  exact stInv_setReg _ _ _ hs (hs.1 a2.toNat (by omega))
    (Or.inl (by simp only [REG_CARRY]; omega))
    (Or.inl (by simp only [REG_TRAP]; omega))

theorem stInv_and (s : CPUState) (a1 a2 a3 : Int) (hs : stInv s)
    (h1 : 0 ≤ a1) (h1b : a1 < 33) (h2 : 0 ≤ a2) (h2b : a2 < 33)
    (h3 : 0 ≤ a3) (h3b : a3 < 33) (h3c : a3 ≠ 3) (h3t : a3 ≠ 5) :
    ∀ t, and_ s a1 a2 a3 = some t → stInv t := by
  intro t h
  simp only [and_, getRegI_of_nonneg _ _ h1 h1b, getRegI_of_nonneg _ _ h2 h2b,
    setRegI_of_nonneg _ _ _ h3 h3b, Option.bind_eq_bind, Option.some_bind,
    Option.some.injEq] at h
  subst h
  exact stInv_setReg _ _ _ hs
    (land_inRange _ _ (hs.1 a1.toNat (by omega)) (hs.1 a2.toNat (by omega)))
    (Or.inl (by simp only [REG_CARRY]; omega))
    (Or.inl (by simp only [REG_TRAP]; omega))

theorem stInv_andi (s : CPUState) (a1 val a2 : Int) (hs : stInv s)
    (h1 : 0 ≤ a1) (h1b : a1 < 33) (hv0 : 0 ≤ val) (hv1 : val < 2 ^ 32)
    (h2 : 0 ≤ a2) (h2b : a2 < 33) (h2c : a2 ≠ 3) (h2t : a2 ≠ 5) :
    ∀ t, andi s a1 val a2 = some t → stInv t := by
  intro t h
  simp only [andi, getRegI_of_nonneg _ _ h1 h1b,
    setRegI_of_nonneg _ _ _ h2 h2b, Option.bind_eq_bind, Option.some_bind,
    Option.some.injEq] at h
  subst h
  exact stInv_setReg _ _ _ hs
    (land_inRange _ _ (hs.1 a1.toNat (by omega)) (inRange_of_word val hv0 hv1))
    (Or.inl (by simp only [REG_CARRY]; omega))
    (Or.inl (by simp only [REG_TRAP]; omega))

theorem stInv_or (s : CPUState) (a1 a2 a3 : Int) (hs : stInv s)
    (h1 : 0 ≤ a1) (h1b : a1 < 33) (h2 : 0 ≤ a2) (h2b : a2 < 33)
    (h3 : 0 ≤ a3) (h3b : a3 < 33) (h3c : a3 ≠ 3) (h3t : a3 ≠ 5) :
    ∀ t, or_ s a1 a2 a3 = some t → stInv t := by
  intro t h
  simp only [or_, getRegI_of_nonneg _ _ h1 h1b, getRegI_of_nonneg _ _ h2 h2b,
    setRegI_of_nonneg _ _ _ h3 h3b, Option.bind_eq_bind, Option.some_bind,
    Option.some.injEq] at h
  subst h
  exact stInv_setReg _ _ _ hs
    (lor_inRange _ _ (hs.1 a1.toNat (by omega)) (hs.1 a2.toNat (by omega)))
    (Or.inl (by simp only [REG_CARRY]; omega))
    (Or.inl (by simp only [REG_TRAP]; omega))

theorem stInv_ori (s : CPUState) (a1 val a2 : Int) (hs : stInv s)
    (h1 : 0 ≤ a1) (h1b : a1 < 33) (hv0 : 0 ≤ val) (hv1 : val < 2 ^ 32)
    (h2 : 0 ≤ a2) (h2b : a2 < 33) (h2c : a2 ≠ 3) (h2t : a2 ≠ 5) :
    ∀ t, ori s a1 val a2 = some t → stInv t := by
  intro t h
  simp only [ori, getRegI_of_nonneg _ _ h1 h1b,
    setRegI_of_nonneg _ _ _ h2 h2b, Option.bind_eq_bind, Option.some_bind,
    Option.some.injEq] at h
  subst h
  exact stInv_setReg _ _ _ hs
    (lor_inRange _ _ (hs.1 a1.toNat (by omega)) (inRange_of_word val hv0 hv1))
    (Or.inl (by simp only [REG_CARRY]; omega))
    (Or.inl (by simp only [REG_TRAP]; omega))

theorem stInv_xor (s : CPUState) (a1 a2 a3 : Int) (hs : stInv s)
    (h1 : 0 ≤ a1) (h1b : a1 < 33) (h2 : 0 ≤ a2) (h2b : a2 < 33)
    (h3 : 0 ≤ a3) (h3b : a3 < 33) (h3c : a3 ≠ 3) (h3t : a3 ≠ 5) :
    ∀ t, xor_ s a1 a2 a3 = some t → stInv t := by
  intro t h
  simp only [xor_, getRegI_of_nonneg _ _ h1 h1b, getRegI_of_nonneg _ _ h2 h2b,
    setRegI_of_nonneg _ _ _ h3 h3b, Option.bind_eq_bind, Option.some_bind,
    Option.some.injEq] at h
  subst h
  exact stInv_setReg _ _ _ hs
    (xor_inRange _ _ (hs.1 a1.toNat (by omega)) (hs.1 a2.toNat (by omega)))
    (Or.inl (by simp only [REG_CARRY]; omega))
    (Or.inl (by simp only [REG_TRAP]; omega))

theorem stInv_xori (s : CPUState) (a1 val a2 : Int) (hs : stInv s)
    (h1 : 0 ≤ a1) (h1b : a1 < 33) (hv0 : 0 ≤ val) (hv1 : val < 2 ^ 32)
    (h2 : 0 ≤ a2) (h2b : a2 < 33) (h2c : a2 ≠ 3) (h2t : a2 ≠ 5) :
    ∀ t, xori s a1 val a2 = some t → stInv t := by
  intro t h
  simp only [xori, getRegI_of_nonneg _ _ h1 h1b,
    setRegI_of_nonneg _ _ _ h2 h2b, Option.bind_eq_bind, Option.some_bind,
    Option.some.injEq] at h
  subst h
  exact stInv_setReg _ _ _ hs
    (xor_inRange _ _ (hs.1 a1.toNat (by omega)) (inRange_of_word val hv0 hv1))
    (Or.inl (by simp only [REG_CARRY]; omega))
    (Or.inl (by simp only [REG_TRAP]; omega))

theorem stInv_not (s : CPUState) (a1 a2 : Int) (hs : stInv s)
    (h1 : 0 ≤ a1) (h1b : a1 < 33)
    (h2 : 0 ≤ a2) (h2b : a2 < 33) (h2c : a2 ≠ 3) (h2t : a2 ≠ 5) :
    ∀ t, not_ s a1 a2 = some t → stInv t := by
  intro t h
  simp only [not_, getRegI_of_nonneg _ _ h1 h1b,
    setRegI_of_nonneg _ _ _ h2 h2b, Option.bind_eq_bind, Option.some_bind,
    Option.some.injEq] at h
  subst h
  exact stInv_setReg _ _ _ hs
    (lnot_inRange _ (hs.1 a1.toNat (by omega)))
    (Or.inl (by simp only [REG_CARRY]; omega))
    (Or.inl (by simp only [REG_TRAP]; omega))

theorem stInv_shr (s : CPUState) (a1 a2 a3 : Int) (hs : stInv s)
    (h1 : 0 ≤ a1) (h1b : a1 < 33) (h2 : 0 ≤ a2) (h2b : a2 < 33)
    (h3 : 0 ≤ a3) (h3b : a3 < 33) (h3c : a3 ≠ 3) (h3t : a3 ≠ 5) :
    ∀ t, shr s a1 a2 a3 = some t → stInv t := by
  intro t h
  simp only [shr, getRegI_of_nonneg _ _ h1 h1b, getRegI_of_nonneg _ _ h2 h2b,
    Option.bind_eq_bind, Option.some_bind] at h
  split_ifs at h with hneg
  rw [setRegI_of_nonneg _ _ _ h3 h3b] at h
  simp only [Option.some.injEq] at h
  subst h
  refine stInv_setReg _ _ _ hs ?_
    (Or.inl (by simp only [REG_CARRY]; omega))
    (Or.inl (by simp only [REG_TRAP]; omega))
  exact fdiv_inRange _ _ (hs.1 a1.toNat (by omega)) (by positivity)

theorem stInv_shri (s : CPUState) (a1 val a2 : Int) (hs : stInv s)
    (h1 : 0 ≤ a1) (h1b : a1 < 33)
    (h2 : 0 ≤ a2) (h2b : a2 < 33) (h2c : a2 ≠ 3) (h2t : a2 ≠ 5) :
    ∀ t, shri s a1 val a2 = some t → stInv t := by
  intro t h
  simp only [shri, getRegI_of_nonneg _ _ h1 h1b,
    Option.bind_eq_bind, Option.some_bind] at h
  split_ifs at h with hneg
  rw [setRegI_of_nonneg _ _ _ h2 h2b] at h
  simp only [Option.some.injEq] at h
  subst h
  refine stInv_setReg _ _ _ hs ?_
    (Or.inl (by simp only [REG_CARRY]; omega))
    (Or.inl (by simp only [REG_TRAP]; omega))
  exact fdiv_inRange _ _ (hs.1 a1.toNat (by omega)) (by positivity)

theorem stInv_ok (t : CPUState) (ht : stInv t) :
    ∀ s2, stateOf (StepResult.ok t) = some s2 → stInv s2 := by
  intro s2 h
  simp only [stateOf, Option.some.injEq] at h
  subst h
  exact ht

theorem stInv_halted (t : CPUState) (ht : stInv t) :
    ∀ s2, stateOf (StepResult.halted t) = some s2 → stInv s2 := by
  intro s2 h
  simp only [stateOf, Option.some.injEq] at h
  subst h
  exact ht

theorem stInv_blocked (t : CPUState) (ht : stInv t) :
    ∀ s2, stateOf (StepResult.blocked t) = some s2 → stInv s2 := by
  intro s2 h
  simp only [stateOf, Option.some.injEq] at h
  subst h
  exact ht

theorem stInv_ok_trap (s4 : CPUState) (hs4 : stInv s4) :
    ∀ s2, stateOf (StepResult.ok (trap s4 TRAP_ILL)) = some s2 → stInv s2 :=
  stInv_ok _ (stInv_trap _ _ hs4 (by decide) (by decide))

theorem checkArgs_NNN :
    checkArgs [(ArgKind.IA_NONE, w1), (ArgKind.IA_NONE, w2),
      (ArgKind.IA_NONE, w3)] = some [] := rfl

theorem checkArgs_ANN (w1 w2 w3 : Int) :
    checkArgs [(ArgKind.IA_ADDR, w1), (ArgKind.IA_NONE, w2),
      (ArgKind.IA_NONE, w3)] = some [w1] := rfl

theorem checkArgs_IAN (w1 w2 w3 : Int) :
    checkArgs [(ArgKind.IA_IMMED, w1), (ArgKind.IA_ADDR, w2),
      (ArgKind.IA_NONE, w3)] = some [w1, w2] := rfl

theorem checkArgs_RAN (w1 w2 w3 : Int) :
    checkArgs [(ArgKind.IA_REG, w1), (ArgKind.IA_ADDR, w2),
      (ArgKind.IA_NONE, w3)] =
      if w1 > (REG_RESVD : Int) then none else some [w1, w2] := by
  by_cases h1 : w1 > (REG_RESVD : Int) <;> simp [checkArgs, h1]

theorem checkArgs_RIN (w1 w2 w3 : Int) :
    checkArgs [(ArgKind.IA_REG, w1), (ArgKind.IA_IMMED, w2),
      (ArgKind.IA_NONE, w3)] =
      if w1 > (REG_RESVD : Int) then none else some [w1, w2] := by
  by_cases h1 : w1 > (REG_RESVD : Int) <;> simp [checkArgs, h1]

theorem checkArgs_RRN (w1 w2 w3 : Int) :
    checkArgs [(ArgKind.IA_REG, w1), (ArgKind.IA_REG, w2),
      (ArgKind.IA_NONE, w3)] =
      if w1 > (REG_RESVD : Int) ∨ w2 > (REG_RESVD : Int) then none
      else some [w1, w2] := by
  by_cases h1 : w1 > (REG_RESVD : Int) <;>
    by_cases h2 : w2 > (REG_RESVD : Int) <;> simp [checkArgs, h1, h2]

theorem checkArgs_RRR (w1 w2 w3 : Int) :
    checkArgs [(ArgKind.IA_REG, w1), (ArgKind.IA_REG, w2),
      (ArgKind.IA_REG, w3)] =
      if w1 > (REG_RESVD : Int) ∨ w2 > (REG_RESVD : Int) ∨
          w3 > (REG_RESVD : Int) then none
      else some [w1, w2, w3] := by
  by_cases h1 : w1 > (REG_RESVD : Int) <;>
    by_cases h2 : w2 > (REG_RESVD : Int) <;>
    by_cases h3 : w3 > (REG_RESVD : Int) <;> simp [checkArgs, h1, h2, h3]

theorem checkArgs_RIR (w1 w2 w3 : Int) :
    checkArgs [(ArgKind.IA_REG, w1), (ArgKind.IA_IMMED, w2),
      (ArgKind.IA_REG, w3)] =
      if w1 > (REG_RESVD : Int) ∨ w3 > (REG_RESVD : Int) then none
      else some [w1, w2, w3] := by
  by_cases h1 : w1 > (REG_RESVD : Int) <;>
    by_cases h3 : w3 > (REG_RESVD : Int) <;> simp [checkArgs, h1, h3]

theorem checkArgs_RRA (w1 w2 w3 : Int) :
    checkArgs [(ArgKind.IA_REG, w1), (ArgKind.IA_REG, w2),
      (ArgKind.IA_ADDR, w3)] =
      if w1 > (REG_RESVD : Int) ∨ w2 > (REG_RESVD : Int) then none
      else some [w1, w2, w3] := by
  by_cases h1 : w1 > (REG_RESVD : Int) <;>
    by_cases h2 : w2 > (REG_RESVD : Int) <;> simp [checkArgs, h1, h2]

theorem checkArgs_RIA (w1 w2 w3 : Int) :
    checkArgs [(ArgKind.IA_REG, w1), (ArgKind.IA_IMMED, w2),
      (ArgKind.IA_ADDR, w3)] =
      if w1 > (REG_RESVD : Int) then none else some [w1, w2, w3] := by
  by_cases h1 : w1 > (REG_RESVD : Int) <;> simp [checkArgs, h1]

/-- A successful word fetch advances PC by 4, leaves the fetched word in
the scratch register, and yields a word in [0, 2^32). -/
theorem fetchWord_ok (s s2 : CPUState) (w : Int)
    (hmem : ∀ b ∈ s.memory, b < 256)
    (hpc0 : 0 ≤ getReg s REG_PC) (hpc3 : getReg s REG_PC + 3 ≤ MAXVAL)
    (hf : fetchWord s = some (s2, w)) :
    s2 = setReg (setReg s REG_RESVD w) REG_PC (getReg s REG_PC + 4) ∧
    0 ≤ w ∧ w < 2 ^ 32 := by
  rw [fetchWord, loadw] at hf
  rw [if_neg (by omega : ¬ getReg s REG_PC + 3 > MAXVAL)] at hf
  cases hg0 : pyGetByte s.memory (getReg s REG_PC) with
  | none => rw [hg0] at hf; simp at hf
  | some b0 =>
  rw [hg0] at hf
  simp only [Option.bind_eq_bind, Option.some_bind] at hf
  cases hg1 : pyGetByte s.memory (getReg s REG_PC + 1) with
  | none => rw [hg1] at hf; simp at hf
  | some b1 =>
  rw [hg1] at hf
  simp only [Option.some_bind] at hf
  cases hg2 : pyGetByte s.memory (getReg s REG_PC + 2) with
  | none => rw [hg2] at hf; simp at hf
  | some b2 =>
  rw [hg2] at hf
  simp only [Option.some_bind] at hf
  cases hg3 : pyGetByte s.memory (getReg s REG_PC + 3) with
  | none => rw [hg3] at hf; simp at hf
  | some b3 =>
  rw [hg3] at hf
  simp only [Option.some_bind,
    setRegI_natCast _ _ _ (by norm_num [REG_RESVD] : REG_RESVD < 33),
    pure, Option.some.injEq, Prod.mk.injEq] at hf
  obtain ⟨hs2, hw⟩ := hf
  rw [getReg_setReg_self] at hw
  rw [getReg_setReg_ne _ _ (by norm_num [REG_PC, REG_RESVD])] at hs2
  subst hw
  refine ⟨hs2.symm, by positivity, ?_⟩
  have hb0 : b0 < 256 := hmem b0 (pyGetByte_mem _ _ _ hg0)
  have hb1 : b1 < 256 := hmem b1 (pyGetByte_mem _ _ _ hg1)
  have hb2 : b2 < 256 := hmem b2 (pyGetByte_mem _ _ _ hg2)
  have hb3 : b3 < 256 := hmem b3 (pyGetByte_mem _ _ _ hg3)
  have hc := loadw_bytes_eq b0 b1 b2 b3 hb0 hb1 hb2 hb3
  have hcompN : (b0 <<< 24 ||| b1 <<< 16 ||| b2 <<< 8 ||| b3 : Nat) <
      2 ^ 32 := by rw [hc]; omega
  exact_mod_cast hcompN

/-- C1: for all register values a and b held in r1 and r2, add stores
(a + b) mod MAXVAL — the modulus being 2^32 - 1, with residue in
[0, MAXVAL) — into r3 and sets CARRY to 1 iff a + b > MAXVAL, else 0;
mul does the same for a * b; sub stores (a - b) mod MINVAL — modulus
-2^32, a non-positive residue in (MINVAL, 0] — and sets CARRY to 1 iff
a - b < MINVAL.  In particular a raw sum equal to MAXVAL wraps to 0 and
one equal to MAXVAL + 1 wraps to 1. -/
theorem C1_arith_wraparound (s : CPUState) (r1 r2 r3 : Nat)
    (h1 : r1 < 33) (h2 : r2 < 33) (h3 : r3 < 33) (hc : r3 ≠ REG_CARRY) :
    (regOf (add s r1 r2 r3) r3 = some ((getReg s r1 + getReg s r2).fmod MAXVAL) ∧
     regOf (add s r1 r2 r3) REG_CARRY =
       some (if getReg s r1 + getReg s r2 > MAXVAL then 1 else 0) ∧
     0 ≤ (getReg s r1 + getReg s r2).fmod MAXVAL ∧
     (getReg s r1 + getReg s r2).fmod MAXVAL < MAXVAL) ∧
    (regOf (mul s r1 r2 r3) r3 = some ((getReg s r1 * getReg s r2).fmod MAXVAL) ∧
     regOf (mul s r1 r2 r3) REG_CARRY =
       some (if getReg s r1 * getReg s r2 > MAXVAL then 1 else 0) ∧
     0 ≤ (getReg s r1 * getReg s r2).fmod MAXVAL ∧
     (getReg s r1 * getReg s r2).fmod MAXVAL < MAXVAL) ∧
    (regOf (sub s r1 r2 r3) r3 = some ((getReg s r1 - getReg s r2).fmod MINVAL) ∧
     regOf (sub s r1 r2 r3) REG_CARRY =
       some (if getReg s r1 - getReg s r2 < MINVAL then 1 else 0) ∧
     MINVAL < (getReg s r1 - getReg s r2).fmod MINVAL ∧
     (getReg s r1 - getReg s r2).fmod MINVAL ≤ 0) ∧
    (getReg s r1 + getReg s r2 = MAXVAL → regOf (add s r1 r2 r3) r3 = some 0) ∧
    (getReg s r1 + getReg s r2 = MAXVAL + 1 → regOf (add s r1 r2 r3) r3 = some 1) := by
  have hMpos : (0 : Int) < MAXVAL := by decide
  have hMneg : MINVAL < (0 : Int) := by decide
  have hgc : ∀ t : CPUState, ∀ x c : Int,
      getReg (setReg (setReg t r3 x) REG_CARRY c) r3 = x := by
    intro t x c
    rw [getReg_setReg_ne _ _ hc, getReg_setReg_self]
  refine ⟨⟨?_, ?_, Int.fmod_nonneg' _ hMpos, Int.fmod_lt_of_pos _ hMpos⟩,
    ⟨?_, ?_, Int.fmod_nonneg' _ hMpos, Int.fmod_lt_of_pos _ hMpos⟩,
    ⟨?_, ?_, (fmod_neg_bounds _ hMneg).1, (fmod_neg_bounds _ hMneg).2⟩, ?_, ?_⟩
  · rw [add_eq s r1 r2 r3 h1 h2 h3]; simp [regOf, hgc]
  · rw [add_eq s r1 r2 r3 h1 h2 h3]; simp [regOf, getReg_setReg_self]
  · rw [mul_eq s r1 r2 r3 h1 h2 h3]; simp [regOf, hgc]
  · rw [mul_eq s r1 r2 r3 h1 h2 h3]; simp [regOf, getReg_setReg_self]
  · rw [sub_eq s r1 r2 r3 h1 h2 h3]; simp [regOf, hgc]
  · rw [sub_eq s r1 r2 r3 h1 h2 h3]; simp [regOf, getReg_setReg_self]
  · intro h
    rw [add_eq s r1 r2 r3 h1 h2 h3]
    simp [regOf, hgc, h, Int.fmod_self]
  · intro h
    rw [add_eq s r1 r2 r3 h1 h2 h3]
    simp [regOf, hgc, h]
    decide

/-- C1 witness: 0xFFFFFFFE + 3 wraps to 2 with CARRY 1. -/
theorem C1_arith_wraparound_witness :
    regOf (add (mkState [] [(6, 4294967294), (7, 3)]) 6 7 8) 8 = some 2 ∧
    regOf (add (mkState [] [(6, 4294967294), (7, 3)]) 6 7 8) REG_CARRY = some 1 := by
  have h := C1_arith_wraparound (mkState [] [(6, 4294967294), (7, 3)]) 6 7 8
    (by decide) (by decide) (by decide) (by decide)
  exact ⟨h.1.1.trans (by decide), h.1.2.1.trans (by decide)⟩

/-- C2: a trap raised while the TRAP register is 1 with a vector other
than DTRAP escalates to a double trap: on return PC = DTRAP = 0x40, RET
holds the PC from the moment of the call, TRAP is still 1 and interrupts
are masked. -/
theorem C2_double_trap (s : CPUState) (v : Int)
    (hT : getReg s REG_TRAP = 1) (hv : v ≠ TRAP_DTRAP) :
    getReg (trap s v) REG_PC = TRAP_DTRAP ∧
    getReg (trap s v) REG_RET = getReg s REG_PC ∧
    getReg (trap s v) REG_TRAP = 1 ∧
    (trap s v).intr_mask = true := by
  have h0 : getReg s REG_TRAP ≠ 0 := by rw [hT]; decide
  have e1 : trap s v = trapFuel 7 (dsi { s with intr_event := true }) TRAP_DTRAP :=
    trapFuel_esc 7 s v h0 hv
  have e2 : trapFuel 7 (dsi { s with intr_event := true }) TRAP_DTRAP =
      trapState (dsi { s with intr_event := true }) TRAP_DTRAP :=
    trapFuel_base 5 _ _ (Or.inr rfl) (by decide)
  rw [e1, e2]
  refine ⟨rfl, ?_, rfl, rfl⟩
  show (if REG_RET = REG_PC then TRAP_DTRAP
        else if REG_RET = REG_RET then s.registers REG_PC
        else if REG_RET = REG_TRAP then 1 else s.registers REG_RET) = getReg s REG_PC
  simp [REG_RET, REG_PC, REG_TRAP, getReg]

/-- C2 witness: a double trap from TRAP = 1, PC = 100 via vector ILL. -/
theorem C2_double_trap_witness :
    getReg (trap (mkState [] [(5, 1), (0, 100)]) TRAP_ILL) REG_PC = TRAP_DTRAP ∧
    getReg (trap (mkState [] [(5, 1), (0, 100)]) TRAP_ILL) REG_RET = 100 ∧
    getReg (trap (mkState [] [(5, 1), (0, 100)]) TRAP_ILL) REG_TRAP = 1 ∧
    (trap (mkState [] [(5, 1), (0, 100)]) TRAP_ILL).intr_mask = true := by
  have h := C2_double_trap (mkState [] [(5, 1), (0, 100)]) TRAP_ILL
    (by decide) (by decide)
  exact ⟨h.1, h.2.1.trans (by decide), h.2.2.1, h.2.2.2⟩

/-- C6: ret sets TRAP to 0 and PC to RET and re-enables interrupts, so
after a single trap from an untrapped state with no interrupt pending it
restores PC to the value held at the moment of the trap call and clears
TRAP. -/
theorem C6_ret_after_trap (s : CPUState) (v : Int)
    (hT : getReg s REG_TRAP = 0) (hv : 0 ≤ v) (hp : s.intr_pending = false) :
    getReg (ret (trap s v)) REG_PC = getReg s REG_PC ∧
    getReg (ret (trap s v)) REG_PC = getReg (trap s v) REG_RET ∧
    getReg (ret (trap s v)) REG_TRAP = 0 ∧
    (ret (trap s v)).intr_mask = false := by
  have e : trap s v = trapState s v := trapFuel_base 6 s v (Or.inl hT) hv
  rw [e]
  have hp2 : (trapState s v).intr_pending = false := hp
  simp [ret, eni, intr, trapState, setReg, getReg, dsi, hp2, hp,
    REG_PC, REG_RET, REG_TRAP]

/-- C6 witness: trap from PC = 92 to vector DIV, then ret. -/
theorem C6_ret_after_trap_witness :
    getReg (ret (trap (mkState [] [(0, 92)]) TRAP_DIV)) REG_PC = 92 ∧
    getReg (ret (trap (mkState [] [(0, 92)]) TRAP_DIV)) REG_PC =
      getReg (trap (mkState [] [(0, 92)]) TRAP_DIV) REG_RET ∧
    getReg (ret (trap (mkState [] [(0, 92)]) TRAP_DIV)) REG_TRAP = 0 ∧
    (ret (trap (mkState [] [(0, 92)]) TRAP_DIV)).intr_mask = false := by
  have h := C6_ret_after_trap (mkState [] [(0, 92)]) TRAP_DIV
    (by decide) (by decide) (by decide)
  exact ⟨h.1.trans (by decide), h.2.1, h.2.2.1, h.2.2.2⟩

/-- C3: from a masked state with nothing pending, any number n ≥ 1 of
intr calls only sets the pending flag (all deferrals collapse into one
and nothing else changes); a single subsequent eni with TRAP = 0 then
delivers exactly one INTR trap (PC = 0x10, TRAP = 1) and clears
pending. -/
theorem C3_deferred_interrupts (s : CPUState) (n : Nat)
    (hm : s.intr_mask = true) (hp : s.intr_pending = false) (hn : 1 ≤ n)
    (hT : getReg s REG_TRAP = 0) :
    intr^[n] s = { s with intr_pending := true } ∧
    getReg (eni (intr^[n] s)) REG_PC = TRAP_INTR ∧
    getReg (eni (intr^[n] s)) REG_TRAP = 1 ∧
    (eni (intr^[n] s)).intr_pending = false := by
  obtain ⟨k, rfl⟩ : ∃ k, n = k + 1 := ⟨n - 1, by omega⟩
  have hA : intr s = { s with intr_pending := true } := by simp [intr, hm]
  have hB : intr { s with intr_pending := true } =
      { s with intr_pending := true } := by simp [intr, hm]
  have hiter : intr^[k + 1] s = { s with intr_pending := true } := by
    rw [Function.iterate_succ_apply, hA, Function.iterate_fixed hB]
  have htrap : trap ({ s with intr_mask := false, intr_pending := false } :
      CPUState) TRAP_INTR = trapState
        { s with intr_mask := false, intr_pending := false } TRAP_INTR :=
    trapFuel_base 6 _ _ (Or.inl hT) (by decide)
  have e : eni { s with intr_pending := true } =
      trapState { s with intr_mask := false, intr_pending := false }
        TRAP_INTR := by
    simp only [eni, intr]
    simpa using htrap
  rw [hiter, e]
  exact ⟨rfl, rfl, rfl, rfl⟩

/-- C3 witness: three deferred interrupts from a masked state with
PC = 64, then one eni delivering the single INTR trap. -/
theorem C3_deferred_interrupts_witness :
    intr^[3] (dsi (mkState [] [(0, 64)])) =
      { dsi (mkState [] [(0, 64)]) with intr_pending := true } ∧
    getReg (eni (intr^[3] (dsi (mkState [] [(0, 64)])))) REG_PC = TRAP_INTR ∧
    getReg (eni (intr^[3] (dsi (mkState [] [(0, 64)])))) REG_TRAP = 1 ∧
    (eni (intr^[3] (dsi (mkState [] [(0, 64)])))).intr_pending = false :=
  C3_deferred_interrupts (dsi (mkState [] [(0, 64)])) 3 rfl rfl
    (by decide) (by decide)

/-- C9 (code bug): swap(6, 7) on a state where register 6 holds 5 and
register 7 holds 9 leaves register 6 holding the literal register index
7 — not register 7's previous value 9 — while register 7 does receive
register 6's old value 5.  The source writes the index argument, not the
register contents, into the first register. -/
theorem C9_swap_stores_index :
    regOf (swap (mkState [] [(6, 5), (7, 9)]) 6 7) 6 = some 7 ∧
    regOf (swap (mkState [] [(6, 5), (7, 9)]) 6 7) 7 = some 5 := by decide

/-- C7 counterexample: the stored register holds -1; the four bytes
written are 0xFF each and the loaded value is 0xFFFFFFFF, not the stored
value -1, so the round-trip law fails for register values outside
[0, MAXVAL]. -/
theorem C7_roundtrip_neg_value :
    regOf ((savew (mkState (List.replicate 8 0) [(6, -1)]) 6 0).bind
      (fun s1 => loadw s1 7 0)) 7 = some 4294967295 ∧
    getReg (mkState (List.replicate 8 0) [(6, -1)]) 6 = -1 ∧
    ((4294967295 : Int) ≠ -1) := by decide

/-- C7 (amended): for a register value v, an address a with 0 ≤ a,
a + 3 ≤ MAXVAL and a + 3 inside memory, savew followed by loadw from the
same address loads v mod 2^32 — the low 32 bits of v, equal to v itself
exactly when 0 ≤ v ≤ MAXVAL — and the four bytes written at a .. a + 3
are the big-endian base-256 digits of v mod 2^32. -/
theorem C7_savew_loadw_roundtrip (s : CPUState) (r1 r2 : Nat) (a : Int)
    (h1 : r1 < 33) (h2 : r2 < 33) (ha : 0 ≤ a) (hb : a + 3 ≤ MAXVAL)
    (hm : a.toNat + 3 < s.memory.length) :
    ∃ s1, savew s (r1 : Int) a = some s1 ∧
      pyGetByte s1.memory a =
        some (((getReg s r1).emod (2 ^ 32)).toNat / 2 ^ 24 % 256) ∧
      pyGetByte s1.memory (a + 1) =
        some (((getReg s r1).emod (2 ^ 32)).toNat / 2 ^ 16 % 256) ∧
      pyGetByte s1.memory (a + 2) =
        some (((getReg s r1).emod (2 ^ 32)).toNat / 2 ^ 8 % 256) ∧
      pyGetByte s1.memory (a + 3) =
        some (((getReg s r1).emod (2 ^ 32)).toNat % 256) ∧
      regOf (loadw s1 (r2 : Int) a) r2 = some ((getReg s r1).emod (2 ^ 32)) ∧
      (0 ≤ getReg s r1 → getReg s r1 ≤ MAXVAL →
        regOf (loadw s1 (r2 : Int) a) r2 = some (getReg s r1)) := by
  set v := getReg s r1 with hv
  have hd24 := fdiv_emod_byte v 24 (by omega)
  have hd16 := fdiv_emod_byte v 16 (by omega)
  have hd8 := fdiv_emod_byte v 8 (by omega)
  have hd0 : v.emod 256 = (((v.emod (2 ^ 32)).toNat % 256 : Nat) : Int) := by
    have := fdiv_emod_byte v 0 (by omega)
    simpa using this
  have hB24 : ((v.fdiv (2 ^ 24)).emod 256).toNat =
      (v.emod (2 ^ 32)).toNat / 2 ^ 24 % 256 := by
    rw [hd24]; exact Int.toNat_natCast _
  have hB16 : ((v.fdiv (2 ^ 16)).emod 256).toNat =
      (v.emod (2 ^ 32)).toNat / 2 ^ 16 % 256 := by
    rw [hd16]; exact Int.toNat_natCast _
  have hB8 : ((v.fdiv (2 ^ 8)).emod 256).toNat =
      (v.emod (2 ^ 32)).toNat / 2 ^ 8 % 256 := by
    rw [hd8]; exact Int.toNat_natCast _
  have hB0 : (v.emod 256).toNat = (v.emod (2 ^ 32)).toNat % 256 := by
    rw [hd0]; exact Int.toNat_natCast _
  have hsw := savew_eq s r1 a h1 ha hb hm
  rw [← hv] at hsw
  refine ⟨_, hsw, ?_⟩
  have hlen : ((((s.memory.set a.toNat (((v.fdiv (2 ^ 24)).emod 256).toNat)).set
      (a.toNat + 1) (((v.fdiv (2 ^ 16)).emod 256).toNat)).set
      (a.toNat + 2) (((v.fdiv (2 ^ 8)).emod 256).toNat)).set
      (a.toNat + 3) ((v.emod 256).toNat)).length = s.memory.length := by
    simp [List.length_set]
  have g0 : ((((s.memory.set a.toNat (((v.fdiv (2 ^ 24)).emod 256).toNat)).set
      (a.toNat + 1) (((v.fdiv (2 ^ 16)).emod 256).toNat)).set
      (a.toNat + 2) (((v.fdiv (2 ^ 8)).emod 256).toNat)).set
      (a.toNat + 3) ((v.emod 256).toNat))[a.toNat]? =
      some (((v.fdiv (2 ^ 24)).emod 256).toNat) := by
    rw [List.getElem?_set_ne (by omega), List.getElem?_set_ne (by omega),
      List.getElem?_set_ne (by omega),
      List.getElem?_set_self (by omega)]
  have g1 : ((((s.memory.set a.toNat (((v.fdiv (2 ^ 24)).emod 256).toNat)).set
      (a.toNat + 1) (((v.fdiv (2 ^ 16)).emod 256).toNat)).set
      (a.toNat + 2) (((v.fdiv (2 ^ 8)).emod 256).toNat)).set
      (a.toNat + 3) ((v.emod 256).toNat))[a.toNat + 1]? =
      some (((v.fdiv (2 ^ 16)).emod 256).toNat) := by
    rw [List.getElem?_set_ne (by omega), List.getElem?_set_ne (by omega),
      List.getElem?_set_self (by simp [List.length_set]; omega)]
  have g2 : ((((s.memory.set a.toNat (((v.fdiv (2 ^ 24)).emod 256).toNat)).set
      (a.toNat + 1) (((v.fdiv (2 ^ 16)).emod 256).toNat)).set
      (a.toNat + 2) (((v.fdiv (2 ^ 8)).emod 256).toNat)).set
      (a.toNat + 3) ((v.emod 256).toNat))[a.toNat + 2]? =
      some (((v.fdiv (2 ^ 8)).emod 256).toNat) := by
    rw [List.getElem?_set_ne (by omega),
      List.getElem?_set_self (by simp [List.length_set]; omega)]
  have g3 : ((((s.memory.set a.toNat (((v.fdiv (2 ^ 24)).emod 256).toNat)).set
      (a.toNat + 1) (((v.fdiv (2 ^ 16)).emod 256).toNat)).set
      (a.toNat + 2) (((v.fdiv (2 ^ 8)).emod 256).toNat)).set
      (a.toNat + 3) ((v.emod 256).toNat))[a.toNat + 3]? =
      some ((v.emod 256).toNat) := by
    rw [List.getElem?_set_self (by simp [List.length_set]; omega)]
  have ht1 : (a + 1).toNat = a.toNat + 1 := by omega
  have ht2 : (a + 2).toNat = a.toNat + 2 := by omega
  have ht3 : (a + 3).toNat = a.toNat + 3 := by omega
  have hload := loadw_eq
    { s with memory :=
      ((((s.memory.set a.toNat (((v.fdiv (2 ^ 24)).emod 256).toNat)).set
        (a.toNat + 1) (((v.fdiv (2 ^ 16)).emod 256).toNat)).set
        (a.toNat + 2) (((v.fdiv (2 ^ 8)).emod 256).toNat)).set
        (a.toNat + 3) ((v.emod 256).toNat)) }
    r2 a h2 ha hb _ _ _ _ g0 g1 g2 g3
  have hnn : 0 ≤ v.emod (2 ^ 32) := Int.emod_nonneg v (by positivity)
  have hlt : v.emod (2 ^ 32) < 2 ^ 32 := Int.emod_lt_of_pos v (by positivity)
  have hcomp : ((((v.fdiv (2 ^ 24)).emod 256).toNat <<< 24 |||
      ((v.fdiv (2 ^ 16)).emod 256).toNat <<< 16 |||
      ((v.fdiv (2 ^ 8)).emod 256).toNat <<< 8 |||
      (v.emod 256).toNat : Nat) : Int) = v.emod (2 ^ 32) := by
    rw [loadw_bytes_eq _ _ _ _ (by omega) (by omega) (by omega) (by omega)]
    rw [hB24, hB16, hB8, hB0]
    have he : (v.emod (2 ^ 32)).toNat < 2 ^ 32 := by omega
    have hsum : (v.emod (2 ^ 32)).toNat / 2 ^ 24 % 256 * 2 ^ 24 +
        (v.emod (2 ^ 32)).toNat / 2 ^ 16 % 256 * 2 ^ 16 +
        (v.emod (2 ^ 32)).toNat / 2 ^ 8 % 256 * 2 ^ 8 +
        (v.emod (2 ^ 32)).toNat % 256 = (v.emod (2 ^ 32)).toNat := by
      omega
    rw [hsum]
    omega
  refine ⟨?_, ?_, ?_, ?_, ?_, ?_⟩
  · rw [pyGetByte_of_nonneg _ _ ha]
    show _ = some (((v.emod (2 ^ 32)).toNat / 2 ^ 24 % 256 : Nat))
    rw [g0, hB24]
  · rw [pyGetByte_of_nonneg _ _ (by omega : (0:Int) ≤ a + 1)]
    show _ = some (((v.emod (2 ^ 32)).toNat / 2 ^ 16 % 256 : Nat))
    rw [ht1, g1, hB16]
  · rw [pyGetByte_of_nonneg _ _ (by omega : (0:Int) ≤ a + 2)]
    show _ = some (((v.emod (2 ^ 32)).toNat / 2 ^ 8 % 256 : Nat))
    rw [ht2, g2, hB8]
  · rw [pyGetByte_of_nonneg _ _ (by omega : (0:Int) ≤ a + 3)]
    show _ = some (((v.emod (2 ^ 32)).toNat % 256 : Nat))
    rw [ht3, g3, hB0]
  · rw [hload]
    simp only [regOf, Option.map_some']
    rw [getReg_setReg_self, hcomp]
  · intro hv0 hv1
    rw [hload]
    simp only [regOf, Option.map_some']
    rw [getReg_setReg_self, hcomp]
    congr 1
    refine Int.emod_eq_of_lt hv0 ?_
    simp only [MAXVAL] at hv1
    omega

/-- C7 witness: storing 0xDEADBEEF at address 4 in a 16-byte memory
writes bytes DE AD BE EF and loads back as 0xDEADBEEF. -/
theorem C7_savew_loadw_roundtrip_witness :
    ∃ s1, savew (mkState (List.replicate 16 0) [(6, 0xDEADBEEF)])
        ((6 : Nat) : Int) 4 = some s1 ∧
      pyGetByte s1.memory 4 = some 0xDE ∧
      pyGetByte s1.memory (4 + 1) = some 0xAD ∧
      pyGetByte s1.memory (4 + 2) = some 0xBE ∧
      pyGetByte s1.memory (4 + 3) = some 0xEF ∧
      regOf (loadw s1 ((7 : Nat) : Int) 4) 7 = some 0xDEADBEEF := by
  obtain ⟨s1, hs, b0, b1, b2, b3, hl, _⟩ :=
    C7_savew_loadw_roundtrip (mkState (List.replicate 16 0) [(6, 0xDEADBEEF)])
      6 7 4 (by decide) (by decide) (by decide) (by decide) (by decide)
  exact ⟨s1, hs, b0.trans (by decide), b1.trans (by decide),
    b2.trans (by decide), b3.trans (by decide), hl.trans (by decide)⟩

/-- C10 counterexample: a decoded loadb at address 0x100 with a 16-byte
memory aborts the engine with an uncaught IndexError — a crash, not a
trap — so not every error condition of a decoded instruction surfaces as
a trap. -/
theorem C10_loadb_out_of_bounds_crash :
    decode_next_instr (mkState
      [0, 0, 0, 0x0a, 0, 0, 0, 6, 0, 0, 1, 0, 0, 0, 0, 0] []) =
      StepResult.crash := by rfl

/-- C10 (amended): byte accesses are not bounds-checked.  For a
nonnegative address, loadb and saveb complete without trapping when the
address is inside memory and abort the engine (uncaught IndexError,
never a trap) when it is at or past the end of memory; shl aborts with
an uncaught ValueError when the shift-count register is negative and
completes for a nonnegative count (unreduced). -/
theorem C10_byte_access_unchecked (s : CPUState) (r1 r2 r3 : Nat) (a : Int)
    (h1 : r1 < 33) (h2 : r2 < 33) (h3 : r3 < 33) (ha : 0 ≤ a) :
    ((s.memory.length : Int) ≤ a →
      loadb s (r1 : Int) a = none ∧ saveb s (r1 : Int) a = none) ∧
    (a < (s.memory.length : Int) →
      (∃ b, pyGetByte s.memory a = some b ∧
        loadb s (r1 : Int) a = some (setReg s r1 (b : Int))) ∧
      saveb s (r1 : Int) a = some { s with
        memory := s.memory.set a.toNat (((getReg s r1).emod 256).toNat) }) ∧
    (getReg s r2 < 0 → shl s (r1 : Int) (r2 : Int) (r3 : Int) = none) ∧
    (0 ≤ getReg s r2 → shl s (r1 : Int) (r2 : Int) (r3 : Int) =
      some (setReg s r3 (getReg s r1 * 2 ^ (getReg s r2).toNat))) := by
  refine ⟨?_, ?_, ?_, ?_⟩
  · intro hoob
    constructor
    · rw [loadb, pyGetByte_of_nonneg _ _ ha,
        List.getElem?_eq_none (by omega)]
      rfl
    · rw [saveb]
      simp only [getRegI_natCast _ _ h1, Option.bind_eq_bind, Option.some_bind]
      have h1' : ¬ a < 0 := by omega
      have hset : pySetByte s.memory a (((getReg s r1).emod 256).toNat) = none := by
        simp only [pySetByte, h1']
        rw [if_neg (by omega)]
      rw [hset]
      rfl
  · intro hin
    constructor
    · refine ⟨s.memory[a.toNat], ?_, ?_⟩
      · rw [pyGetByte_of_nonneg _ _ ha]
        exact List.getElem?_eq_getElem (by omega)
      · rw [loadb, pyGetByte_of_nonneg _ _ ha,
          List.getElem?_eq_getElem (by omega)]
        simp only [Option.bind_eq_bind, Option.some_bind]
        rw [setRegI_natCast _ _ _ h1]
    · rw [saveb]
      simp only [getRegI_natCast _ _ h1, Option.bind_eq_bind, Option.some_bind]
      rw [pySetByte_of_nonneg _ _ _ ha hin]
      rfl
  · intro hneg
    rw [shl]
    simp only [getRegI_natCast _ _ h1, getRegI_natCast _ _ h2,
      Option.bind_eq_bind, Option.some_bind]
    rw [if_pos hneg]
  · intro hpos
    rw [shl]
    simp only [getRegI_natCast _ _ h1, getRegI_natCast _ _ h2,
      Option.bind_eq_bind, Option.some_bind]
    rw [if_neg (by omega), setRegI_natCast _ _ _ h3]

/-- C10 witness: with a one-byte memory, loadb at address 5 crashes and
at address 0 completes; shl with shift-count register holding -1
crashes; shift count 2 completes. -/
theorem C10_byte_access_unchecked_witness :
    loadb (mkState [7] [(6, 300)]) ((6 : Nat) : Int) 5 = none ∧
    (∃ b, pyGetByte (mkState [7] [(6, 300)]).memory 0 = some b ∧
      loadb (mkState [7] [(6, 300)]) ((6 : Nat) : Int) 0 =
        some (setReg (mkState [7] [(6, 300)]) 6 (b : Int))) ∧
    shl (mkState [] [(6, 3), (7, -1)]) ((6 : Nat) : Int) ((7 : Nat) : Int)
      ((8 : Nat) : Int) = none ∧
    shl (mkState [] [(6, 3), (7, 2)]) ((6 : Nat) : Int) ((7 : Nat) : Int)
      ((8 : Nat) : Int) =
      some (setReg (mkState [] [(6, 3), (7, 2)]) 8
        (getReg (mkState [] [(6, 3), (7, 2)]) 6 *
          2 ^ (getReg (mkState [] [(6, 3), (7, 2)]) 7).toNat)) := by
  have hA := C10_byte_access_unchecked (mkState [7] [(6, 300)]) 6 7 8 5
    (by decide) (by decide) (by decide) (by decide)
  have hB := C10_byte_access_unchecked (mkState [7] [(6, 300)]) 6 7 8 0
    (by decide) (by decide) (by decide) (by decide)
  have hC := C10_byte_access_unchecked (mkState [] [(6, 3), (7, -1)]) 6 7 8 0
    (by decide) (by decide) (by decide) (by decide)
  have hD := C10_byte_access_unchecked (mkState [] [(6, 3), (7, 2)]) 6 7 8 0
    (by decide) (by decide) (by decide) (by decide)
  exact ⟨(hA.1 (by decide)).1, (hB.2.1 (by decide)).1,
    hC.2.2.1 (by decide), hD.2.2.2 (by decide)⟩

/-- C4 counterexample: a divide by zero with destination register 0 (the
PC).  The claim asserts that on a zero divisor the DIV trap is raised
and the destination register r3 is left unchanged; here the trap itself
rewrites the destination from 0 to 0x30, so the claim fails at r3 = 0. -/
theorem C4_div_zero_dest_pc :
    regOf (div (mkState [] [(6, 5)]) 6 7 0) 0 = some 0x30 ∧
    getReg (mkState [] [(6, 5)]) 0 = 0 := by decide

/-- C4 (amended): starting outside a trap (TRAP = 0), a div whose
divisor register holds 0 raises the DIV trap — PC = 0x30, TRAP = 1 —
and leaves every register other than PC, RET and TRAP, in particular a
general-purpose destination r3, unchanged; with a nonzero divisor r3
receives the floor quotient (when r3 is not CARRY itself) and CARRY
becomes 0. -/
theorem C4_div_amended (s : CPUState) (r1 r2 r3 : Nat)
    (h1 : r1 < 33) (h2 : r2 < 33) (h3 : r3 < 33) :
    (getReg s r2 = 0 → getReg s REG_TRAP = 0 →
      regOf (div s r1 r2 r3) REG_PC = some TRAP_DIV ∧
      regOf (div s r1 r2 r3) REG_TRAP = some 1 ∧
      (r3 ≠ REG_PC → r3 ≠ REG_RET → r3 ≠ REG_TRAP →
        regOf (div s r1 r2 r3) r3 = some (getReg s r3))) ∧
    (getReg s r2 ≠ 0 →
      (r3 ≠ REG_CARRY → regOf (div s r1 r2 r3) r3 =
        some ((getReg s r1).fdiv (getReg s r2))) ∧
      regOf (div s r1 r2 r3) REG_CARRY = some 0) := by
  constructor
  · intro hz hT
    have e : div s (r1 : Int) (r2 : Int) (r3 : Int) =
        some (trap s TRAP_DIV) := by
      simp [div, getRegI_natCast _ _ h2, hz]
    have e2 : trap s TRAP_DIV = trapState s TRAP_DIV :=
      trapFuel_base 6 s TRAP_DIV (Or.inl hT) (by decide)
    rw [e, e2]
    refine ⟨rfl, rfl, ?_⟩
    intro hA hB hC
    simp [regOf, trapState, getReg, REG_PC, REG_RET, REG_TRAP] at hA hB hC ⊢
    simp [hA, hB, hC]
  · intro hz
    have e : div s (r1 : Int) (r2 : Int) (r3 : Int) =
        some (setReg (setReg s r3 ((getReg s r1).fdiv (getReg s r2)))
          REG_CARRY 0) := by
      simp [div, getRegI_natCast _ _ h1, getRegI_natCast _ _ h2,
        setRegI_natCast _ _ _ h3, hz]
    rw [e]
    constructor
    · intro hc
      simp [regOf]
      rw [getReg_setReg_ne _ _ hc, getReg_setReg_self]
    · simp [regOf, getReg_setReg_self]

/-- C4 witness: divisor 0 with general-purpose destination 8 traps to
DIV leaving register 8 at 0; divisor 2 into 7 // 2 gives 3, CARRY 0. -/
theorem C4_div_amended_witness :
    regOf (div (mkState [] [(6, 5)]) 6 7 8) REG_PC = some TRAP_DIV ∧
    regOf (div (mkState [] [(6, 5)]) 6 7 8) 8 = some 0 ∧
    regOf (div (mkState [] [(6, 7), (7, 2)]) 6 7 8) 8 = some 3 ∧
    regOf (div (mkState [] [(6, 7), (7, 2)]) 6 7 8) REG_CARRY = some 0 := by
  have ha := C4_div_amended (mkState [] [(6, 5)]) 6 7 8
    (by decide) (by decide) (by decide)
  have hb := C4_div_amended (mkState [] [(6, 7), (7, 2)]) 6 7 8
    (by decide) (by decide) (by decide)
  refine ⟨(ha.1 (by decide) (by decide)).1, ?_, ?_, (hb.2 (by decide)).2⟩
  · exact ((ha.1 (by decide) (by decide)).2.2 (by decide) (by decide)
      (by decide)).trans (by decide)
  · exact ((hb.2 (by decide)).1 (by decide)).trans (by decide)

/-- C5 (code bug): a decoded instruction with a REG operand equal to
0x20 does not trap ILL — the source checks `arg > REG_RESVD` (0x20)
where the specified bound is 0x1F — so the operation is invoked and
register 0x20 (RESVD) is addressable by programs.  Here copy with first
operand 0x20 copies register 6 (value 42) into register 0x20, with
TRAP still 0 and PC advanced normally to 16. -/
theorem C5_reg_0x20_accepted :
    regOfResult (decode_next_instr (mkState
      [0, 0, 0, 0x29, 0, 0, 0, 0x20, 0, 0, 0, 6, 0, 0, 0, 0] [(6, 42)])) 0x20 =
      some 42 ∧
    regOfResult (decode_next_instr (mkState
      [0, 0, 0, 0x29, 0, 0, 0, 0x20, 0, 0, 0, 6, 0, 0, 0, 0] [(6, 42)]))
      REG_TRAP = some 0 ∧
    regOfResult (decode_next_instr (mkState
      [0, 0, 0, 0x29, 0, 0, 0, 0x20, 0, 0, 0, 6, 0, 0, 0, 0] [(6, 42)]))
      REG_PC = some 16 := by decide

/-- C8 (counterexample to the unamended claim): a decoded shl executed
from a state satisfying the register/flag invariant stores the unreduced
shift 1 <<< 33 = 8589934592 in the destination register, a value above
MAXVAL and outside the signed 33-bit range. -/
theorem C8_shl_out_of_range :
    stInv (mkState [0, 0, 0, 0x31, 0, 0, 0, 6, 0, 0, 0, 7, 0, 0, 0, 8]
      [(6, 1), (7, 33)]) ∧
    regOfResult (decode_next_instr (mkState
      [0, 0, 0, 0x31, 0, 0, 0, 6, 0, 0, 0, 7, 0, 0, 0, 8]
      [(6, 1), (7, 33)])) 8 = some 8589934592 ∧
    ¬ inRange 8589934592 := by decide

/-- C8 (amended): after any single decoded instruction whose opcode is
not div (0x10), shl (0x31) or shli (0x33), executed from a state
satisfying the invariant — all 33 registers in the signed 33-bit range,
CARRY and TRAP each 0 or 1, memory bytes below 256 — with 0 ≤ PC and
PC + 16 ≤ MAXVAL, and whose REG-kind operands name neither the CARRY
register nor the TRAP register, every delivered state again satisfies
the invariant: all registers in [-2^32, 2^32 - 1] and CARRY and TRAP
each 0 or 1. -/
theorem C8_invariant_amended (s s1 s2 s3 s4 : CPUState)
    (w0 w1 w2 w3 : Int)
    (hinv : stInv s)
    (hpc0 : 0 ≤ getReg s REG_PC)
    (hpc16 : getReg s REG_PC + 16 ≤ MAXVAL)
    (hf0 : fetchWord s = some (s1, w0))
    (hf1 : fetchWord s1 = some (s2, w1))
    (hf2 : fetchWord s2 = some (s3, w2))
    (hf3 : fetchWord s3 = some (s4, w3))
    (hop : w0 ≠ 0x10 ∧ w0 ≠ 0x31 ∧ w0 ≠ 0x33)
    (hregs : regOperandsOk w0 w1 w2 w3) :
    resultInv (decode_next_instr s) := by
  have hMn : MINVAL ≤ 0 := by decide
  have hM : MAXVAL = 2 ^ 32 - 1 := rfl
  have hR : (REG_RESVD : Int) = 32 := by decide
  obtain ⟨he1, hw0a, hw0b⟩ := fetchWord_ok s s1 w0 hinv.2.2.2 hpc0
    (by omega) hf0
  have hs1 : stInv s1 := by
    rw [he1]
    exact stInv_setReg _ _ _ (stInv_resvd s w0 hinv hw0a hw0b)
      ⟨by omega, by omega⟩ (Or.inl (by decide)) (Or.inl (by decide))
  have hpc1 : getReg s1 REG_PC = getReg s REG_PC + 4 := by
    rw [he1, getReg_setReg_self]
  have hmem1 : s1.memory = s.memory := by rw [he1]; rfl
  obtain ⟨he2, hw1a, hw1b⟩ := fetchWord_ok s1 s2 w1
    (by rw [hmem1]; exact hinv.2.2.2) (by rw [hpc1]; omega)
    (by rw [hpc1]; omega) hf1
  have hs2 : stInv s2 := by
    rw [he2]
    exact stInv_setReg _ _ _ (stInv_resvd s1 w1 hs1 hw1a hw1b)
      ⟨by omega, by omega⟩ (Or.inl (by decide)) (Or.inl (by decide))
  have hpc2 : getReg s2 REG_PC = getReg s1 REG_PC + 4 := by
    rw [he2, getReg_setReg_self]
  have hmem2 : s2.memory = s1.memory := by rw [he2]; rfl
  obtain ⟨he3, hw2a, hw2b⟩ := fetchWord_ok s2 s3 w2
    (by rw [hmem2, hmem1]; exact hinv.2.2.2) (by rw [hpc2, hpc1]; omega)
    (by rw [hpc2, hpc1]; omega) hf2
  have hs3 : stInv s3 := by
    rw [he3]
    exact stInv_setReg _ _ _ (stInv_resvd s2 w2 hs2 hw2a hw2b)
      ⟨by omega, by omega⟩ (Or.inl (by decide)) (Or.inl (by decide))
  have hpc3 : getReg s3 REG_PC = getReg s2 REG_PC + 4 := by
    rw [he3, getReg_setReg_self]
  have hmem3 : s3.memory = s2.memory := by rw [he3]; rfl
  obtain ⟨he4, hw3a, hw3b⟩ := fetchWord_ok s3 s4 w3
    (by rw [hmem3, hmem2, hmem1]; exact hinv.2.2.2)
    (by rw [hpc3, hpc2, hpc1]; omega)
    (by rw [hpc3, hpc2, hpc1]; omega) hf3
  have hs4 : stInv s4 := by
    rw [he4]
    exact stInv_setReg _ _ _ (stInv_resvd s3 w3 hs3 hw3a hw3b)
      ⟨by omega, by omega⟩ (Or.inl (by decide)) (Or.inl (by decide))
  intro sp hres
  simp only [decode_next_instr, hf0, hf1, hf2, hf3] at hres
  by_cases hbig : w0 ≥ (INSTRS.length : Int)
  · rw [if_pos hbig] at hres
    exact stInv_ok_trap s4 hs4 sp hres
  · rw [if_neg hbig] at hres
    have hneg : ¬ w0 < 0 := by omega
    simp only [if_neg hneg] at hres
    have hlen : INSTRS.length = 53 := rfl
    rw [hlen] at hbig
    obtain ⟨n, rfl⟩ : ∃ n : Nat, w0 = (n : Int) := ⟨w0.toNat, by omega⟩
    have hn53 : n < 53 := by omega
    simp only [Int.toNat_natCast] at hres
    interval_cases n
    · -- opcode 0x00 nop
      have hrow : INSTRS[(0 : Nat)]? =
          some (ArgKind.IA_NONE, ArgKind.IA_NONE, ArgKind.IA_NONE) := rfl
      rw [hrow] at hres
      simp only [checkArgs_NNN] at hres
      exact stInv_ok (nop s4) hs4 sp hres
    · -- opcode 0x01 savew
      have hrow : INSTRS[(1 : Nat)]? =
          some (ArgKind.IA_REG, ArgKind.IA_ADDR, ArgKind.IA_NONE) := rfl
      rw [hrow] at hres
      simp only [checkArgs_RAN] at hres
      split_ifs at hres with hbad
      · exact stInv_ok_trap s4 hs4 sp hres
      · push_neg at hbad
        exact stInv_liftOp _ (stInv_savew s4 w1 w2 hs4 hw1a (by omega)) sp hres
    · -- opcode 0x02 savewr
      have hrow : INSTRS[(2 : Nat)]? =
          some (ArgKind.IA_REG, ArgKind.IA_REG, ArgKind.IA_NONE) := rfl
      rw [hrow] at hres
      simp only [checkArgs_RRN] at hres
      split_ifs at hres with hbad
      · exact stInv_ok_trap s4 hs4 sp hres
      · push_neg at hbad
        exact stInv_liftOp _ (stInv_savewr s4 w1 w2 hs4 hw1a (by omega) hw2a (by omega)) sp hres
    · -- opcode 0x03 savewi
      have hrow : INSTRS[(3 : Nat)]? =
          some (ArgKind.IA_IMMED, ArgKind.IA_ADDR, ArgKind.IA_NONE) := rfl
      rw [hrow] at hres
      simp only [checkArgs_IAN] at hres
      exact stInv_liftOp _ (stInv_savewi s4 w1 w2 hs4 hw1a hw1b) sp hres
    · -- opcode 0x04 loadw
      have hrow : INSTRS[(4 : Nat)]? =
          some (ArgKind.IA_REG, ArgKind.IA_ADDR, ArgKind.IA_NONE) := rfl
      rw [hrow] at hres
      simp only [checkArgs_RAN] at hres
      split_ifs at hres with hbad
      · exact stInv_ok_trap s4 hs4 sp hres
      · push_neg at hbad
        exact stInv_liftOp _ (stInv_loadw s4 w1 w2 hs4 hw1a (by omega) (hregs.1 rfl).1 (hregs.1 rfl).2) sp hres
    · -- opcode 0x05 loadwr
      have hrow : INSTRS[(5 : Nat)]? =
          some (ArgKind.IA_REG, ArgKind.IA_REG, ArgKind.IA_NONE) := rfl
      rw [hrow] at hres
      simp only [checkArgs_RRN] at hres
      split_ifs at hres with hbad
      · exact stInv_ok_trap s4 hs4 sp hres
      · push_neg at hbad
        exact stInv_liftOp _ (stInv_loadwr s4 w1 w2 hs4 hw1a (by omega) (hregs.1 rfl).1 (hregs.1 rfl).2 hw2a (by omega)) sp hres
    · -- opcode 0x06 loadwi
      have hrow : INSTRS[(6 : Nat)]? =
          some (ArgKind.IA_REG, ArgKind.IA_IMMED, ArgKind.IA_NONE) := rfl
      rw [hrow] at hres
      simp only [checkArgs_RIN] at hres
      split_ifs at hres with hbad
      · exact stInv_ok_trap s4 hs4 sp hres
      · push_neg at hbad
        exact stInv_liftOp _ (stInv_loadwi s4 w1 w2 hs4 hw1a (by omega) (hregs.1 rfl).1 (hregs.1 rfl).2 hw2a hw2b) sp hres
    · -- opcode 0x07 saveb
      have hrow : INSTRS[(7 : Nat)]? =
          some (ArgKind.IA_REG, ArgKind.IA_ADDR, ArgKind.IA_NONE) := rfl
      rw [hrow] at hres
      simp only [checkArgs_RAN] at hres
      split_ifs at hres with hbad
      · exact stInv_ok_trap s4 hs4 sp hres
      · push_neg at hbad
        exact stInv_liftOp _ (stInv_saveb s4 w1 w2 hs4 hw1a (by omega)) sp hres
    · -- opcode 0x08 savebr
      have hrow : INSTRS[(8 : Nat)]? =
          some (ArgKind.IA_REG, ArgKind.IA_REG, ArgKind.IA_NONE) := rfl
      rw [hrow] at hres
      simp only [checkArgs_RRN] at hres
      split_ifs at hres with hbad
      · exact stInv_ok_trap s4 hs4 sp hres
      · push_neg at hbad
        exact stInv_liftOp _ (stInv_savebr s4 w1 w2 hs4 hw1a (by omega) hw2a (by omega)) sp hres
    · -- opcode 0x09 savebi
      have hrow : INSTRS[(9 : Nat)]? =
          some (ArgKind.IA_IMMED, ArgKind.IA_ADDR, ArgKind.IA_NONE) := rfl
      rw [hrow] at hres
      simp only [checkArgs_IAN] at hres
      exact stInv_liftOp _ (stInv_savebi s4 w1 w2 hs4 hw1a hw1b) sp hres
    · -- opcode 0x0a loadb
      have hrow : INSTRS[(10 : Nat)]? =
          some (ArgKind.IA_REG, ArgKind.IA_ADDR, ArgKind.IA_NONE) := rfl
      rw [hrow] at hres
      simp only [checkArgs_RAN] at hres
      split_ifs at hres with hbad
      · exact stInv_ok_trap s4 hs4 sp hres
      · push_neg at hbad
        exact stInv_liftOp _ (stInv_loadb s4 w1 w2 hs4 hw1a (by omega) (hregs.1 rfl).1 (hregs.1 rfl).2) sp hres
    · -- opcode 0x0b loadbr
      have hrow : INSTRS[(11 : Nat)]? =
          some (ArgKind.IA_REG, ArgKind.IA_REG, ArgKind.IA_NONE) := rfl
      rw [hrow] at hres
      simp only [checkArgs_RRN] at hres
      split_ifs at hres with hbad
      · exact stInv_ok_trap s4 hs4 sp hres
      · push_neg at hbad
        exact stInv_liftOp _ (stInv_loadbr s4 w1 w2 hs4 hw1a (by omega) (hregs.1 rfl).1 (hregs.1 rfl).2 hw2a (by omega)) sp hres
    · -- opcode 0x0c loadbi
      have hrow : INSTRS[(12 : Nat)]? =
          some (ArgKind.IA_REG, ArgKind.IA_IMMED, ArgKind.IA_NONE) := rfl
      rw [hrow] at hres
      simp only [checkArgs_RIN] at hres
      split_ifs at hres with hbad
      · exact stInv_ok_trap s4 hs4 sp hres
      · push_neg at hbad
        exact stInv_liftOp _ (stInv_loadbi s4 w1 w2 hs4 hw1a (by omega) (hregs.1 rfl).1 (hregs.1 rfl).2) sp hres
    · -- opcode 0x0d add
      have hrow : INSTRS[(13 : Nat)]? =
          some (ArgKind.IA_REG, ArgKind.IA_REG, ArgKind.IA_REG) := rfl
      rw [hrow] at hres
      simp only [checkArgs_RRR] at hres
      split_ifs at hres with hbad
      · exact stInv_ok_trap s4 hs4 sp hres
      · push_neg at hbad
        exact stInv_liftOp _ (stInv_add s4 w1 w2 w3 hs4 hw1a (by omega) hw2a (by omega) hw3a (by omega) (hregs.2.2 rfl).1 (hregs.2.2 rfl).2) sp hres
    · -- opcode 0x0e sub
      have hrow : INSTRS[(14 : Nat)]? =
          some (ArgKind.IA_REG, ArgKind.IA_REG, ArgKind.IA_REG) := rfl
      rw [hrow] at hres
      simp only [checkArgs_RRR] at hres
      split_ifs at hres with hbad
      · exact stInv_ok_trap s4 hs4 sp hres
      · push_neg at hbad
        exact stInv_liftOp _ (stInv_sub s4 w1 w2 w3 hs4 hw1a (by omega) hw2a (by omega) hw3a (by omega) (hregs.2.2 rfl).1 (hregs.2.2 rfl).2) sp hres
    · -- opcode 0x0f mul
      have hrow : INSTRS[(15 : Nat)]? =
          some (ArgKind.IA_REG, ArgKind.IA_REG, ArgKind.IA_REG) := rfl
      rw [hrow] at hres
      simp only [checkArgs_RRR] at hres
      split_ifs at hres with hbad
      · exact stInv_ok_trap s4 hs4 sp hres
      · push_neg at hbad
        exact stInv_liftOp _ (stInv_mul s4 w1 w2 w3 hs4 hw1a (by omega) hw2a (by omega) hw3a (by omega) (hregs.2.2 rfl).1 (hregs.2.2 rfl).2) sp hres
    · -- opcode 0x10 div
      exact absurd (by decide) hop.1
    · -- opcode 0x11 addi
      have hrow : INSTRS[(17 : Nat)]? =
          some (ArgKind.IA_REG, ArgKind.IA_IMMED, ArgKind.IA_REG) := rfl
      rw [hrow] at hres
      simp only [checkArgs_RIR] at hres
      split_ifs at hres with hbad
      · exact stInv_ok_trap s4 hs4 sp hres
      · push_neg at hbad
        exact stInv_liftOp _ (stInv_addi s4 w1 w2 w3 hs4 hw1a (by omega) hw2a hw2b hw3a (by omega) (hregs.2.2 rfl).1 (hregs.2.2 rfl).2) sp hres
    · -- opcode 0x12 subi
      have hrow : INSTRS[(18 : Nat)]? =
          some (ArgKind.IA_REG, ArgKind.IA_IMMED, ArgKind.IA_REG) := rfl
      rw [hrow] at hres
      simp only [checkArgs_RIR] at hres
      split_ifs at hres with hbad
      · exact stInv_ok_trap s4 hs4 sp hres
      · push_neg at hbad
        exact stInv_liftOp _ (stInv_subi s4 w1 w2 w3 hs4 hw1a (by omega) hw2a hw2b hw3a (by omega) (hregs.2.2 rfl).1 (hregs.2.2 rfl).2) sp hres
    · -- opcode 0x13 muli
      have hrow : INSTRS[(19 : Nat)]? =
          some (ArgKind.IA_REG, ArgKind.IA_IMMED, ArgKind.IA_REG) := rfl
      rw [hrow] at hres
      simp only [checkArgs_RIR] at hres
      split_ifs at hres with hbad
      · exact stInv_ok_trap s4 hs4 sp hres
      · push_neg at hbad
        exact stInv_liftOp _ (stInv_muli s4 w1 w2 w3 hs4 hw1a (by omega) hw2a hw2b hw3a (by omega) (hregs.2.2 rfl).1 (hregs.2.2 rfl).2) sp hres
    · -- opcode 0x14 divi
      have hrow : INSTRS[(20 : Nat)]? =
          some (ArgKind.IA_REG, ArgKind.IA_IMMED, ArgKind.IA_REG) := rfl
      rw [hrow] at hres
      simp only [checkArgs_RIR] at hres
      split_ifs at hres with hbad
      · exact stInv_ok_trap s4 hs4 sp hres
      · push_neg at hbad
        exact stInv_liftOp _ (stInv_divi s4 w1 w2 w3 hs4 hw1a (by omega) hw2a hw2b hw3a (by omega) (hregs.2.2 rfl).1 (hregs.2.2 rfl).2) sp hres
    · -- opcode 0x15 jmp
      have hrow : INSTRS[(21 : Nat)]? =
          some (ArgKind.IA_ADDR, ArgKind.IA_NONE, ArgKind.IA_NONE) := rfl
      rw [hrow] at hres
      simp only [checkArgs_ANN] at hres
      exact stInv_ok (jmp s4 w1) (stInv_jmp s4 w1 hs4 (by omega)) sp hres
    · -- opcode 0x16 jmpeq
      have hrow : INSTRS[(22 : Nat)]? =
          some (ArgKind.IA_REG, ArgKind.IA_REG, ArgKind.IA_ADDR) := rfl
      rw [hrow] at hres
      simp only [checkArgs_RRA] at hres
      split_ifs at hres with hbad
      · exact stInv_ok_trap s4 hs4 sp hres
      · push_neg at hbad
        exact stInv_liftOp _ (stInv_jmpeq s4 w1 w2 w3 hs4 hw1a (by omega) hw2a (by omega) (by omega)) sp hres
    · -- opcode 0x17 jmpne
      have hrow : INSTRS[(23 : Nat)]? =
          some (ArgKind.IA_REG, ArgKind.IA_REG, ArgKind.IA_ADDR) := rfl
      rw [hrow] at hres
      simp only [checkArgs_RRA] at hres
      split_ifs at hres with hbad
      · exact stInv_ok_trap s4 hs4 sp hres
      · push_neg at hbad
        exact stInv_liftOp _ (stInv_jmpne s4 w1 w2 w3 hs4 hw1a (by omega) hw2a (by omega) (by omega)) sp hres
    · -- opcode 0x18 jmplt
      have hrow : INSTRS[(24 : Nat)]? =
          some (ArgKind.IA_REG, ArgKind.IA_REG, ArgKind.IA_ADDR) := rfl
      rw [hrow] at hres
      simp only [checkArgs_RRA] at hres
      split_ifs at hres with hbad
      · exact stInv_ok_trap s4 hs4 sp hres
      · push_neg at hbad
        exact stInv_liftOp _ (stInv_jmplt s4 w1 w2 w3 hs4 hw1a (by omega) hw2a (by omega) (by omega)) sp hres
    · -- opcode 0x19 jmpgt
      have hrow : INSTRS[(25 : Nat)]? =
          some (ArgKind.IA_REG, ArgKind.IA_REG, ArgKind.IA_ADDR) := rfl
      rw [hrow] at hres
      simp only [checkArgs_RRA] at hres
      split_ifs at hres with hbad
      · exact stInv_ok_trap s4 hs4 sp hres
      · push_neg at hbad
        exact stInv_liftOp _ (stInv_jmpgt s4 w1 w2 w3 hs4 hw1a (by omega) hw2a (by omega) (by omega)) sp hres
    · -- opcode 0x1a jmple
      have hrow : INSTRS[(26 : Nat)]? =
          some (ArgKind.IA_REG, ArgKind.IA_REG, ArgKind.IA_ADDR) := rfl
      rw [hrow] at hres
      simp only [checkArgs_RRA] at hres
      split_ifs at hres with hbad
      · exact stInv_ok_trap s4 hs4 sp hres
      · push_neg at hbad
        exact stInv_liftOp _ (stInv_jmple s4 w1 w2 w3 hs4 hw1a (by omega) hw2a (by omega) (by omega)) sp hres
    · -- opcode 0x1b jmpge
      have hrow : INSTRS[(27 : Nat)]? =
          some (ArgKind.IA_REG, ArgKind.IA_REG, ArgKind.IA_ADDR) := rfl
      rw [hrow] at hres
      simp only [checkArgs_RRA] at hres
      split_ifs at hres with hbad
      · exact stInv_ok_trap s4 hs4 sp hres
      · push_neg at hbad
        exact stInv_liftOp _ (stInv_jmpge s4 w1 w2 w3 hs4 hw1a (by omega) hw2a (by omega) (by omega)) sp hres
    · -- opcode 0x1c jmpeqi
      have hrow : INSTRS[(28 : Nat)]? =
          some (ArgKind.IA_REG, ArgKind.IA_IMMED, ArgKind.IA_ADDR) := rfl
      rw [hrow] at hres
      simp only [checkArgs_RIA] at hres
      split_ifs at hres with hbad
      · exact stInv_ok_trap s4 hs4 sp hres
      · push_neg at hbad
        exact stInv_liftOp _ (stInv_jmpeqi s4 w1 w2 w3 hs4 hw1a (by omega) hw2a hw2b (by omega)) sp hres
    · -- opcode 0x1d jmpnei
      have hrow : INSTRS[(29 : Nat)]? =
          some (ArgKind.IA_REG, ArgKind.IA_IMMED, ArgKind.IA_ADDR) := rfl
      rw [hrow] at hres
      simp only [checkArgs_RIA] at hres
      split_ifs at hres with hbad
      · exact stInv_ok_trap s4 hs4 sp hres
      · push_neg at hbad
        exact stInv_liftOp _ (stInv_jmpnei s4 w1 w2 w3 hs4 hw1a (by omega) hw2a hw2b (by omega)) sp hres
    · -- opcode 0x1e jmplti
      have hrow : INSTRS[(30 : Nat)]? =
          some (ArgKind.IA_REG, ArgKind.IA_IMMED, ArgKind.IA_ADDR) := rfl
      rw [hrow] at hres
      simp only [checkArgs_RIA] at hres
      split_ifs at hres with hbad
      · exact stInv_ok_trap s4 hs4 sp hres
      · push_neg at hbad
        exact stInv_liftOp _ (stInv_jmplti s4 w1 w2 w3 hs4 hw1a (by omega) hw2a hw2b (by omega)) sp hres
    · -- opcode 0x1f jmpgti
      have hrow : INSTRS[(31 : Nat)]? =
          some (ArgKind.IA_REG, ArgKind.IA_IMMED, ArgKind.IA_ADDR) := rfl
      rw [hrow] at hres
      simp only [checkArgs_RIA] at hres
      split_ifs at hres with hbad
      · exact stInv_ok_trap s4 hs4 sp hres
      · push_neg at hbad
        exact stInv_liftOp _ (stInv_jmpgti s4 w1 w2 w3 hs4 hw1a (by omega) hw2a hw2b (by omega)) sp hres
    · -- opcode 0x20 jmplei
      have hrow : INSTRS[(32 : Nat)]? =
          some (ArgKind.IA_REG, ArgKind.IA_IMMED, ArgKind.IA_ADDR) := rfl
      rw [hrow] at hres
      simp only [checkArgs_RIA] at hres
      split_ifs at hres with hbad
      · exact stInv_ok_trap s4 hs4 sp hres
      · push_neg at hbad
        exact stInv_liftOp _ (stInv_jmplei s4 w1 w2 w3 hs4 hw1a (by omega) hw2a hw2b (by omega)) sp hres
    · -- opcode 0x21 jmpgei
      have hrow : INSTRS[(33 : Nat)]? =
          some (ArgKind.IA_REG, ArgKind.IA_IMMED, ArgKind.IA_ADDR) := rfl
      rw [hrow] at hres
      simp only [checkArgs_RIA] at hres
      split_ifs at hres with hbad
      · exact stInv_ok_trap s4 hs4 sp hres
      · push_neg at hbad
        exact stInv_liftOp _ (stInv_jmpgei s4 w1 w2 w3 hs4 hw1a (by omega) hw2a hw2b (by omega)) sp hres
    · -- opcode 0x22 halt
      have hrow : INSTRS[(34 : Nat)]? =
          some (ArgKind.IA_NONE, ArgKind.IA_NONE, ArgKind.IA_NONE) := rfl
      rw [hrow] at hres
      simp only [checkArgs_NNN] at hres
      exact stInv_halted s4 hs4 sp hres
    · -- opcode 0x23 intr
      have hrow : INSTRS[(35 : Nat)]? =
          some (ArgKind.IA_NONE, ArgKind.IA_NONE, ArgKind.IA_NONE) := rfl
      rw [hrow] at hres
      simp only [checkArgs_NNN] at hres
      exact stInv_ok (intr s4) (stInv_intr s4 hs4) sp hres
    · -- opcode 0x24 ret
      have hrow : INSTRS[(36 : Nat)]? =
          some (ArgKind.IA_NONE, ArgKind.IA_NONE, ArgKind.IA_NONE) := rfl
      rw [hrow] at hres
      simp only [checkArgs_NNN] at hres
      exact stInv_ok (ret s4) (stInv_ret s4 hs4) sp hres
    · -- opcode 0x25 eni
      have hrow : INSTRS[(37 : Nat)]? =
          some (ArgKind.IA_NONE, ArgKind.IA_NONE, ArgKind.IA_NONE) := rfl
      rw [hrow] at hres
      simp only [checkArgs_NNN] at hres
      exact stInv_ok (eni s4) (stInv_eni s4 hs4) sp hres
    · -- opcode 0x26 dsi
      have hrow : INSTRS[(38 : Nat)]? =
          some (ArgKind.IA_NONE, ArgKind.IA_NONE, ArgKind.IA_NONE) := rfl
      rw [hrow] at hres
      simp only [checkArgs_NNN] at hres
      exact stInv_ok (dsi s4) hs4 sp hres
    · -- opcode 0x27 wait
      have hrow : INSTRS[(39 : Nat)]? =
          some (ArgKind.IA_NONE, ArgKind.IA_NONE, ArgKind.IA_NONE) := rfl
      rw [hrow] at hres
      simp only [checkArgs_NNN] at hres
      have hres2 : stateOf (if s4.intr_event = true then StepResult.ok s4
          else StepResult.blocked s4) = some sp := hres
      split_ifs at hres2 with he
      · exact stInv_ok s4 hs4 sp hres2
      · exact stInv_blocked s4 hs4 sp hres2
    · -- opcode 0x28 swap
      have hrow : INSTRS[(40 : Nat)]? =
          some (ArgKind.IA_REG, ArgKind.IA_REG, ArgKind.IA_NONE) := rfl
      rw [hrow] at hres
      simp only [checkArgs_RRN] at hres
      split_ifs at hres with hbad
      · exact stInv_ok_trap s4 hs4 sp hres
      · push_neg at hbad
        exact stInv_liftOp _ (stInv_swap s4 w1 w2 hs4 hw1a (by omega) (hregs.1 rfl).1 (hregs.1 rfl).2 hw2a (by omega) (hregs.2.1 rfl).1 (hregs.2.1 rfl).2) sp hres
    · -- opcode 0x29 copy
      have hrow : INSTRS[(41 : Nat)]? =
          some (ArgKind.IA_REG, ArgKind.IA_REG, ArgKind.IA_NONE) := rfl
      rw [hrow] at hres
      simp only [checkArgs_RRN] at hres
      split_ifs at hres with hbad
      · exact stInv_ok_trap s4 hs4 sp hres
      · push_neg at hbad
        exact stInv_liftOp _ (stInv_copy s4 w1 w2 hs4 hw1a (by omega) (hregs.1 rfl).1 (hregs.1 rfl).2 hw2a (by omega)) sp hres
    · -- opcode 0x2a and
      have hrow : INSTRS[(42 : Nat)]? =
          some (ArgKind.IA_REG, ArgKind.IA_REG, ArgKind.IA_REG) := rfl
      rw [hrow] at hres
      simp only [checkArgs_RRR] at hres
      split_ifs at hres with hbad
      · exact stInv_ok_trap s4 hs4 sp hres
      · push_neg at hbad
        exact stInv_liftOp _ (stInv_and s4 w1 w2 w3 hs4 hw1a (by omega) hw2a (by omega) hw3a (by omega) (hregs.2.2 rfl).1 (hregs.2.2 rfl).2) sp hres
    · -- opcode 0x2b or
      have hrow : INSTRS[(43 : Nat)]? =
          some (ArgKind.IA_REG, ArgKind.IA_REG, ArgKind.IA_REG) := rfl
      rw [hrow] at hres
      simp only [checkArgs_RRR] at hres
      split_ifs at hres with hbad
      · exact stInv_ok_trap s4 hs4 sp hres
      · push_neg at hbad
        exact stInv_liftOp _ (stInv_or s4 w1 w2 w3 hs4 hw1a (by omega) hw2a (by omega) hw3a (by omega) (hregs.2.2 rfl).1 (hregs.2.2 rfl).2) sp hres
    · -- opcode 0x2c xor
      have hrow : INSTRS[(44 : Nat)]? =
          some (ArgKind.IA_REG, ArgKind.IA_REG, ArgKind.IA_REG) := rfl
      rw [hrow] at hres
      simp only [checkArgs_RRR] at hres
      split_ifs at hres with hbad
      · exact stInv_ok_trap s4 hs4 sp hres
      · push_neg at hbad
        exact stInv_liftOp _ (stInv_xor s4 w1 w2 w3 hs4 hw1a (by omega) hw2a (by omega) hw3a (by omega) (hregs.2.2 rfl).1 (hregs.2.2 rfl).2) sp hres
    · -- opcode 0x2d andi
      have hrow : INSTRS[(45 : Nat)]? =
          some (ArgKind.IA_REG, ArgKind.IA_IMMED, ArgKind.IA_REG) := rfl
      rw [hrow] at hres
      simp only [checkArgs_RIR] at hres
      split_ifs at hres with hbad
      · exact stInv_ok_trap s4 hs4 sp hres
      · push_neg at hbad
        exact stInv_liftOp _ (stInv_andi s4 w1 w2 w3 hs4 hw1a (by omega) hw2a hw2b hw3a (by omega) (hregs.2.2 rfl).1 (hregs.2.2 rfl).2) sp hres
    · -- opcode 0x2e ori
      have hrow : INSTRS[(46 : Nat)]? =
          some (ArgKind.IA_REG, ArgKind.IA_IMMED, ArgKind.IA_REG) := rfl
      rw [hrow] at hres
      simp only [checkArgs_RIR] at hres
      split_ifs at hres with hbad
      · exact stInv_ok_trap s4 hs4 sp hres
      · push_neg at hbad
        exact stInv_liftOp _ (stInv_ori s4 w1 w2 w3 hs4 hw1a (by omega) hw2a hw2b hw3a (by omega) (hregs.2.2 rfl).1 (hregs.2.2 rfl).2) sp hres
    · -- opcode 0x2f xori
      have hrow : INSTRS[(47 : Nat)]? =
          some (ArgKind.IA_REG, ArgKind.IA_IMMED, ArgKind.IA_REG) := rfl
      rw [hrow] at hres
      simp only [checkArgs_RIR] at hres
      split_ifs at hres with hbad
      · exact stInv_ok_trap s4 hs4 sp hres
      · push_neg at hbad
        exact stInv_liftOp _ (stInv_xori s4 w1 w2 w3 hs4 hw1a (by omega) hw2a hw2b hw3a (by omega) (hregs.2.2 rfl).1 (hregs.2.2 rfl).2) sp hres
    · -- opcode 0x30 not
      have hrow : INSTRS[(48 : Nat)]? =
          some (ArgKind.IA_REG, ArgKind.IA_REG, ArgKind.IA_NONE) := rfl
      rw [hrow] at hres
      simp only [checkArgs_RRN] at hres
      split_ifs at hres with hbad
      · exact stInv_ok_trap s4 hs4 sp hres
      · push_neg at hbad
        exact stInv_liftOp _ (stInv_not s4 w1 w2 hs4 hw1a (by omega) hw2a (by omega) (hregs.2.1 rfl).1 (hregs.2.1 rfl).2) sp hres
    · -- opcode 0x31 shl
      exact absurd (by decide) hop.2.1
    · -- opcode 0x32 shr
      have hrow : INSTRS[(50 : Nat)]? =
          some (ArgKind.IA_REG, ArgKind.IA_REG, ArgKind.IA_REG) := rfl
      rw [hrow] at hres
      simp only [checkArgs_RRR] at hres
      split_ifs at hres with hbad
      · exact stInv_ok_trap s4 hs4 sp hres
      · push_neg at hbad
        exact stInv_liftOp _ (stInv_shr s4 w1 w2 w3 hs4 hw1a (by omega) hw2a (by omega) hw3a (by omega) (hregs.2.2 rfl).1 (hregs.2.2 rfl).2) sp hres
    · -- opcode 0x33 shli
      exact absurd (by decide) hop.2.2
    · -- opcode 0x34 shri
      have hrow : INSTRS[(52 : Nat)]? =
          some (ArgKind.IA_REG, ArgKind.IA_IMMED, ArgKind.IA_REG) := rfl
      rw [hrow] at hres
      simp only [checkArgs_RIR] at hres
      split_ifs at hres with hbad
      · exact stInv_ok_trap s4 hs4 sp hres
      · push_neg at hbad
        exact stInv_liftOp _ (stInv_shri s4 w1 w2 w3 hs4 hw1a (by omega) hw3a (by omega) (hregs.2.2 rfl).1 (hregs.2.2 rfl).2) sp hres

/-- C8 witness: the amended invariant theorem applied to a concrete
decoded `add r6 r7 r8` instruction, executed from an invariant state. -/
theorem C8_invariant_amended_witness :
    resultInv (decode_next_instr (mkState
      [0, 0, 0, 0x0d, 0, 0, 0, 6, 0, 0, 0, 7, 0, 0, 0, 8]
      [(6, 5), (7, 9)])) :=
  C8_invariant_amended _ _ _ _ _ _ _ _ _ (by decide) (by decide) (by decide)
    rfl rfl rfl rfl
    ⟨by decide, by decide, by decide⟩
    ⟨fun _ => ⟨by decide, by decide⟩, fun _ => ⟨by decide, by decide⟩,
      fun _ => ⟨by decide, by decide⟩⟩

end CPU
